import Mathlib

/-!
Verification of the stratagem Stackelberg deception-game core.

This file is a shallow embedding, in Lean 4, of the parts of the
repository that the specification's claims are about:

* `src/stratagem/environment/deception.py` — asset catalog;
* `src/stratagem/environment/network.py` — topologies and the
  `small_enterprise` preset;
* `src/stratagem/environment/attack_surface.py` — technique catalog;
* `src/stratagem/evaluation/baselines.py` — the attacker best-response
  operator and the three baseline strategies;
* `src/stratagem/game/solver.py` — the multi-LP Stackelberg solver
  (the external `scipy.optimize.linprog` call is modelled as an exact
  LP oracle, see `SolveSpec`);
* `src/stratagem/game/state.py`, `src/stratagem/game/graph.py`,
  `src/stratagem/agents/stubs.py`,
  `src/stratagem/evaluation/benchmark.py` — game state, round
  evaluation, the stub agents and the synchronous game runner.

Machine floats are embedded as exact rationals (`ℚ`); Python's
`random.Random(seed).random()` stream is embedded as an arbitrary
function `g : ℕ → ℕ → ℚ` from (seed, draw index) to the drawn value,
which every game-level definition takes as a parameter.
-/

namespace Stratagem

/-- Numerical tolerance `1e-8` used by the source (`_EPS` in solver.py and
the tie tolerance in `_attacker_best_response`). -/
def epsTol : ℚ := 1 / 100000000

/-- Slack `1e-6` used by the specification's invariants. -/
def specTol : ℚ := 1 / 1000000

/-! ## Deception asset catalog (environment/deception.py) -/

/-- The three deception asset kinds of `DeceptionType`. -/
inductive DeceptionType where
  | honeypot
  | decoyCredential
  | honeytoken
deriving DecidableEq, Repr

/-- The `list(DeceptionType)` enumeration order used by the solver. -/
def assetTypes : List DeceptionType := [.honeypot, .decoyCredential, .honeytoken]

/-- `ASSET_COSTS`: honeypot 3.0, decoy credential 1.5, honeytoken 1.0. -/
def assetCost : DeceptionType → ℚ
  | .honeypot => 3
  | .decoyCredential => 3 / 2
  | .honeytoken => 1

/-- `ASSET_DETECTION_PROBS`: honeypot 0.85, decoy credential 0.70,
honeytoken 0.50. -/
def assetDetProb : DeceptionType → ℚ
  | .honeypot => 17 / 20
  | .decoyCredential => 7 / 10
  | .honeytoken => 1 / 2

/-- The `.value` string of a `DeceptionType` member. -/
def DeceptionType.str : DeceptionType → String
  | .honeypot => "honeypot"
  | .decoyCredential => "decoy_credential"
  | .honeytoken => "honeytoken"

/-! ## Network domain model (environment/network.py) -/

/-- `NodeType` tags. -/
inductive NodeType where
  | server
  | workstation
  | database
  | router
  | firewall
deriving DecidableEq, Repr

/-- `OS` tags. -/
inductive OSKind where
  | linux
  | windows
deriving DecidableEq, Repr

/-- `Service` tags. -/
inductive Service where
  | ssh
  | http
  | https
  | smb
  | rdp
  | mysql
  | postgresql
  | ftp
  | dns
deriving DecidableEq, Repr

/-- `NodeAttributes`. -/
structure NodeAttrs where
  nodeType : NodeType
  os : OSKind
  services : List Service
  value : ℚ
  compromised : Bool := false
  isEntryPoint : Bool := false
deriving DecidableEq, Repr

instance : Inhabited NodeAttrs :=
  ⟨{ nodeType := .server, os := .linux, services := [], value := 0 }⟩

/-- `NetworkTopology`: nodes in insertion order with their attributes, and
undirected edges in insertion order (networkx `Graph`). -/
structure Topology where
  nodes : List (String × NodeAttrs)
  edges : List (String × String)
deriving DecidableEq, Repr

/-- `topology.nodes` (the node-identifier list, insertion ordered). -/
def Topology.nodeIds (t : Topology) : List String := t.nodes.map Prod.fst

/-- `get_attrs` (total; the source raises `KeyError` off the node set, a
case no embedded call path reaches). -/
def Topology.getAttrs (t : Topology) (nid : String) : NodeAttrs :=
  (t.nodes.lookup nid).getD default

/-- Value of a node, `get_attrs(nid).value`. -/
def Topology.value (t : Topology) (nid : String) : ℚ :=
  (t.getAttrs nid).value

/-- `neighbors` of a node in an undirected edge list. -/
def Topology.neighbors (t : Topology) (nid : String) : List String :=
  t.edges.filterMap fun e =>
    if e.1 = nid then some e.2 else if e.2 = nid then some e.1 else none

/-- `entry_points`. -/
def Topology.entryPoints (t : Topology) : List String :=
  t.nodes.filterMap fun p => if p.2.isEntryPoint then some p.1 else none

/-- `set_compromised`. -/
def Topology.setCompromised (t : Topology) (nid : String) : Topology :=
  { t with
    nodes := t.nodes.map fun p =>
      if p.1 = nid then (p.1, { p.2 with compromised := true }) else p }

/-- The `small_enterprise` preset topology (10 nodes, values as in the
source). -/
def smallEnterprise : Topology where
  nodes :=
    [ ("fw-ext", { nodeType := .firewall, os := .linux, services := [.dns],
                   value := 2, isEntryPoint := true }),
      ("web-1", { nodeType := .server, os := .linux,
                  services := [.http, .https, .ssh], value := 4,
                  isEntryPoint := true }),
      ("web-2", { nodeType := .server, os := .linux,
                  services := [.http, .https, .ssh], value := 4,
                  isEntryPoint := true }),
      ("router-1", { nodeType := .router, os := .linux, services := [.ssh],
                     value := 3 }),
      ("ws-1", { nodeType := .workstation, os := .windows,
                 services := [.smb, .rdp], value := 2 }),
      ("ws-2", { nodeType := .workstation, os := .windows,
                 services := [.smb, .rdp], value := 2 }),
      ("ws-3", { nodeType := .workstation, os := .windows,
                 services := [.smb, .rdp], value := 2 }),
      ("app-1", { nodeType := .server, os := .linux,
                  services := [.http, .ssh], value := 6 }),
      ("db-1", { nodeType := .database, os := .linux,
                 services := [.mysql, .ssh], value := 9 }),
      ("db-2", { nodeType := .database, os := .linux,
                 services := [.postgresql, .ssh], value := 10 }) ]
  edges :=
    [ ("fw-ext", "web-1"), ("fw-ext", "web-2"),
      ("web-1", "router-1"), ("web-2", "router-1"),
      ("router-1", "ws-1"), ("router-1", "ws-2"), ("router-1", "ws-3"),
      ("router-1", "app-1"),
      ("ws-1", "ws-2"), ("ws-2", "ws-3"),
      ("app-1", "db-1"), ("app-1", "db-2") ]

/-! ## Utility algebra (game/solver.py, evaluation/baselines.py) -/

/-- `UtilityParams` with the default alpha = beta = 1. -/
structure UtilityParams where
  alpha : ℚ := 1
  beta : ℚ := 1
deriving DecidableEq, Repr

/-- Attacker expected utility `EU_a(p, v) = p·(−β·v) + (1−p)·v`, exactly the
expression in `_attacker_best_response`. -/
def attackerEU (params : UtilityParams) (p v : ℚ) : ℚ :=
  p * (-params.beta * v) + (1 - p) * v

/-- Defender expected utility `EU_d(p, v) = p·(α·v) + (1−p)·(−v)`, exactly the
expression in `_attacker_best_response`. -/
def defenderEU (params : UtilityParams) (p v : ℚ) : ℚ :=
  p * (params.alpha * v) + (1 - p) * (-v)

/-! ## Attacker best response (baselines.py, `_attacker_best_response`) -/

/-- The running best of the best-response scan: target id, best attacker EU
seen, defender EU of the chosen target. -/
structure BestResp where
  target : String
  attackerVal : ℚ
  defenderVal : ℚ
deriving DecidableEq, Repr

/-- One iteration of the `_attacker_best_response` loop.  `none` plays the
role of the `-np.inf` initial accumulator (the first node always enters the
strict-improvement branch).  In the tie branch the source updates the target
and defender EU but keeps `best_attacker_eu` unchanged. -/
def bestRespStep (params : UtilityParams) (vals dp : String → ℚ)
    (acc : Option BestResp) (nid : String) : Option BestResp :=
  let v := vals nid
  let p := dp nid
  let aEu := attackerEU params p v
  let dEu := defenderEU params p v
  match acc with
  | none => some ⟨nid, aEu, dEu⟩
  | some b =>
    if aEu > b.attackerVal + epsTol then some ⟨nid, aEu, dEu⟩
    else if |aEu - b.attackerVal| < epsTol ∧ dEu > b.defenderVal then
      some ⟨nid, b.attackerVal, dEu⟩
    else some b

/-- `_attacker_best_response(topology, detection_probs, params)`.  The
`detection_probs.get(nid, 0.0)` lookup is embedded as a total function.
Returns `none` only for an empty topology (where the source would return
`("", -inf, -inf)`, which `ℚ` cannot carry). -/
def attackerBestResponse (topo : Topology) (dp : String → ℚ)
    (params : UtilityParams) : Option BestResp :=
  topo.nodeIds.foldl (bestRespStep params topo.value dp) none

/-! ## Stackelberg solver model (game/solver.py) -/

/-- Marginal coverage vector `c_{t,a}`, node and asset kind to probability. -/
abbrev Coverage := String → DeceptionType → ℚ

/-- `Σ_a c_{t,a}` for one node (constraint (i) left-hand side). -/
def nodeCovSum (c : Coverage) (t : String) : ℚ :=
  (assetTypes.map fun a => c t a).sum

/-- Effective detection probability `p(t) = Σ_a c_{t,a}·det_prob(a)`. -/
def effDetProb (c : Coverage) (t : String) : ℚ :=
  (assetTypes.map fun a => c t a * assetDetProb a).sum

/-- Expected spend `Σ_{t,a} c_{t,a}·cost(a)` over the topology's nodes
(constraint (ii) left-hand side). -/
def budgetUsed (topo : Topology) (c : Coverage) : ℚ :=
  (topo.nodeIds.map fun t => (assetTypes.map fun a => c t a * assetCost a).sum).sum

/-- `Δ_a(t) = −(β+1)·v(t)` from the solver derivation. -/
def deltaA (params : UtilityParams) (v : ℚ) : ℚ := -(params.beta + 1) * v

/-- `Δ_d(t) = (α+1)·v(t)` from the solver derivation. -/
def deltaD (params : UtilityParams) (v : ℚ) : ℚ := (params.alpha + 1) * v

/-- Feasible region of `LP(t*)` exactly as assembled in `solve_stackelberg`:
variable bounds, one-asset-per-node rows, the budget row, and one
best-response row for every node other than the candidate target. -/
def lpFeasible (topo : Topology) (B : ℚ) (params : UtilityParams)
    (tstar : String) (c : Coverage) : Prop :=
  (∀ t ∈ topo.nodeIds, ∀ a ∈ assetTypes, 0 ≤ c t a ∧ c t a ≤ 1) ∧
  (∀ t ∈ topo.nodeIds, nodeCovSum c t ≤ 1) ∧
  budgetUsed topo c ≤ B ∧
  (∀ t ∈ topo.nodeIds, t ≠ tstar →
    effDetProb c t * deltaA params (topo.value t)
      - effDetProb c tstar * deltaA params (topo.value tstar)
      ≤ topo.value tstar - topo.value t)

/-- The (maximised) LP objective `Σ_a c_{t*,a}·det_prob(a)·Δ_d(t*)`; the
source minimises its negation and recovers the defender EU by adding the
constant `U_d^u(t*) = −v(t*)`. -/
def lpObjective (topo : Topology) (params : UtilityParams)
    (tstar : String) (c : Coverage) : ℚ :=
  effDetProb c tstar * deltaD params (topo.value tstar)

/-- `StackelbergSolution` (coverage and detection probabilities embedded as
total functions). -/
structure StackelbergSolution where
  coverage : Coverage
  attackerTarget : String
  defenderExpectedUtility : ℚ
  attackerExpectedUtility : ℚ
  detectionProbabilities : String → ℚ

/-- The `prob > _EPS` filter applied to the optimal LP point before it is
stored in the solution's `coverage`. -/
def filterCov (c : Coverage) : Coverage :=
  fun t a => if c t a > epsTol then c t a else 0

/-- Parsing of a solved LP into a `StackelbergSolution`, following the body
of the `if defender_eu > best_defender_eu` block in `solve_stackelberg`:
coverage is filtered at `1e-8`, `p(t) = max(Σ_a c_{t,a}·det_a, 0)`, the
defender EU is the LP objective plus the constant `−v(t*)`, and the attacker
EU is evaluated at `p(t*)`. -/
def mkSolutionFromLP (topo : Topology) (params : UtilityParams)
    (tstar : String) (c : Coverage) : StackelbergSolution :=
  let detp : String → ℚ := fun t => max (effDetProb c t) 0
  { coverage := filterCov c
    attackerTarget := tstar
    defenderExpectedUtility := lpObjective topo params tstar c - topo.value tstar
    attackerExpectedUtility :=
      detp tstar * (-params.beta * topo.value tstar)
        + (1 - detp tstar) * topo.value tstar
    detectionProbabilities := detp }

/-- Relational model of `solve_stackelberg(topology, budget, params)`.

The call to `scipy.optimize.linprog` is external code; it is modelled as an
exact LP oracle: on a feasible `LP(t*)` it returns an optimal feasible
point, on an infeasible one it reports failure.  Under that oracle every
output of the source satisfies, and every solution satisfying the predicate
is a possible output of, this predicate: the returned solution is parsed
from an optimal feasible point of the LP of its own target, and its
defender EU is at least the value of every feasible point of every
candidate's LP (the source keeps the best defender EU across all
successfully solved LPs). -/
def SolveSpec (topo : Topology) (B : ℚ) (params : UtilityParams)
    (sol : StackelbergSolution) : Prop :=
  (∃ tstar c, tstar ∈ topo.nodeIds ∧ lpFeasible topo B params tstar c ∧
    (∀ c2, lpFeasible topo B params tstar c2 →
      lpObjective topo params tstar c2 ≤ lpObjective topo params tstar c) ∧
    sol = mkSolutionFromLP topo params tstar c) ∧
  (∀ tstar c, tstar ∈ topo.nodeIds → lpFeasible topo B params tstar c →
    lpObjective topo params tstar c - topo.value tstar
      ≤ sol.defenderExpectedUtility)

/-! ## Baselines (evaluation/baselines.py) -/

/-- `_build_solution(topology, coverage, params)`: detection probabilities
from the coverage, then the attacker best response fills in the target and
the expected utilities.  (On an empty topology the source would carry
`("", -inf, -inf)`; the `none` branch below puts `0` in place of `-inf` and
is never reached from a nonempty topology.) -/
def buildSolution (topo : Topology) (cov : Coverage)
    (params : UtilityParams) : StackelbergSolution :=
  let detp : String → ℚ := fun t => effDetProb cov t
  match attackerBestResponse topo detp params with
  | some b =>
    { coverage := cov
      attackerTarget := b.target
      defenderExpectedUtility := b.defenderVal
      attackerExpectedUtility := b.attackerVal
      detectionProbabilities := detp }
  | none =>
    { coverage := cov
      attackerTarget := ""
      defenderExpectedUtility := 0
      attackerExpectedUtility := 0
      detectionProbabilities := detp }

/-- Coverage assembled by `uniform_baseline`: a honeytoken share
`min((B/n)/cost_honeytoken, 1)` on every node, omitted when it does not
exceed `1e-8`. -/
def uniformCoverage (topo : Topology) (B : ℚ) : Coverage :=
  let n : ℚ := topo.nodeIds.length
  let perNode : ℚ := if 0 < topo.nodeIds.length then B / n else 0
  let htCost := assetCost .honeytoken
  let covProb : ℚ := if 0 < htCost then min (perNode / htCost) 1 else 0
  fun t a =>
    if t ∈ topo.nodeIds ∧ covProb > epsTol ∧ a = .honeytoken then covProb else 0

/-- `uniform_baseline`. -/
def uniformBaseline (topo : Topology) (B : ℚ)
    (params : UtilityParams) : StackelbergSolution :=
  buildSolution topo (uniformCoverage topo B) params

/-- `_ASSET_PREFERENCE`: honeypot, then decoy credential, then honeytoken. -/
def assetPreference : List DeceptionType := [.honeypot, .decoyCredential, .honeytoken]

/-- The inner loop of `_greedy_allocate`: try asset kinds in preference
order and buy the first whose cost is at most `remaining + 1e-8`,
overwriting the node's coverage row with that single asset at
probability 1. -/
def greedyBuy (cov : Coverage) (nid : String) (remaining : ℚ) :
    List DeceptionType → Coverage × ℚ
  | [] => (cov, remaining)
  | a :: rest =>
    if assetCost a ≤ remaining + epsTol then
      (fun t b => if t = nid then (if b = a then 1 else 0) else cov t b,
        remaining - assetCost a)
    else greedyBuy cov nid remaining rest

/-- The outer loop of `_greedy_allocate` over the ranking, stopping as soon
as the remaining budget falls below the cheapest asset. -/
def greedyAllocateAux (cov : Coverage) (remaining : ℚ) :
    List String → Coverage × ℚ
  | [] => (cov, remaining)
  | nid :: rest =>
    if remaining < assetCost .honeytoken then (cov, remaining)
    else
      let s := greedyBuy cov nid remaining assetPreference
      greedyAllocateAux s.1 s.2 rest

/-- `_greedy_allocate(topology, budget, ranking)` starting from the all-zero
coverage (`{nid: {} for nid in topology.nodes}`). -/
def greedyAllocate (B : ℚ) (ranking : List String) : Coverage :=
  (greedyAllocateAux (fun _ _ => 0) B ranking).1

/-- Stable insertion of one element into a descending-sorted list: the
element goes in front of the first entry whose key is not larger, so that
earlier list elements win ties, as in Python's stable `sorted`. -/
def insertDesc (key : String → ℚ) (x : String) : List String → List String
  | [] => [x]
  | y :: ys => if key y ≤ key x then x :: y :: ys else y :: insertDesc key x ys

/-- Stable descending sort by a rational key, the embedding of
`sorted(nodes, key=key, reverse=True)`. -/
def sortByDesc (key : String → ℚ) : List String → List String
  | [] => []
  | x :: xs => insertDesc key x (sortByDesc key xs)

/-- `static_baseline`: greedy allocation ranked by node value descending. -/
def staticBaseline (topo : Topology) (B : ℚ)
    (params : UtilityParams) : StackelbergSolution :=
  buildSolution topo (greedyAllocate B (sortByDesc topo.value topo.nodeIds)) params

/-- `networkx.degree_centrality`: degree over `n − 1`, and `1` on a graph
with at most one node. -/
def degreeCentrality (topo : Topology) (nid : String) : ℚ :=
  if topo.nodeIds.length ≤ 1 then 1
  else (topo.neighbors nid).length / ((topo.nodeIds.length : ℚ) - 1)

/-- `heuristic_baseline`: greedy allocation ranked by degree centrality
descending. -/
def heuristicBaseline (topo : Topology) (B : ℚ)
    (params : UtilityParams) : StackelbergSolution :=
  buildSolution topo
    (greedyAllocate B (sortByDesc (degreeCentrality topo) topo.nodeIds)) params

/-! ## Attack surface (environment/attack_surface.py) -/

/-- `AccessLevel`. -/
inductive AccessLevel where
  | none
  | user
  | root
deriving DecidableEq, Repr

/-- `access_order.index`, the fixed total order none < user < root. -/
def AccessLevel.rank : AccessLevel → ℕ
  | .none => 0
  | .user => 1
  | .root => 2

/-- `Technique` records (the tactic tag is kept as its string value; it is
not consulted by any embedded code path). -/
structure Technique where
  id : String
  name : String
  tacticTag : String
  baseSuccessRate : ℚ
  noise : ℚ
  requiredAccess : AccessLevel
  grantsAccess : AccessLevel
  requiredServices : List Service
  supportedOs : Option (List OSKind)
deriving DecidableEq, Repr

/-- `Technique.applicable_to(node)`: OS supported (or OS-agnostic) and
required services empty or intersecting the node's services. -/
def Technique.applicableTo (tq : Technique) (node : NodeAttrs) : Bool :=
  (match tq.supportedOs with
   | some oss => oss.contains node.os
   | none => true) &&
  (tq.requiredServices.isEmpty
    || tq.requiredServices.any fun s => node.services.contains s)

/-- `TECHNIQUE_CATALOG`, in source order. -/
def techniqueCatalog : List Technique :=
  [ { id := "T1190", name := "Exploit Public-Facing Application",
      tacticTag := "initial-access", baseSuccessRate := 7/20, noise := 2/5,
      requiredAccess := .none, grantsAccess := .user,
      requiredServices := [.http, .https], supportedOs := Option.none },
    { id := "T1133", name := "External Remote Services",
      tacticTag := "initial-access", baseSuccessRate := 3/10, noise := 3/10,
      requiredAccess := .none, grantsAccess := .user,
      requiredServices := [.ssh, .rdp], supportedOs := Option.none },
    { id := "T1059.004", name := "Unix Shell Command Execution",
      tacticTag := "execution", baseSuccessRate := 4/5, noise := 1/5,
      requiredAccess := .user, grantsAccess := .user,
      requiredServices := [.ssh], supportedOs := some [.linux] },
    { id := "T1059.001", name := "PowerShell Execution",
      tacticTag := "execution", baseSuccessRate := 4/5, noise := 3/10,
      requiredAccess := .user, grantsAccess := .user,
      requiredServices := [.smb, .rdp], supportedOs := some [.windows] },
    { id := "T1068", name := "Exploitation for Privilege Escalation",
      tacticTag := "privilege-escalation", baseSuccessRate := 1/4, noise := 1/2,
      requiredAccess := .user, grantsAccess := .root,
      requiredServices := [], supportedOs := Option.none },
    { id := "T1078", name := "Valid Accounts",
      tacticTag := "privilege-escalation", baseSuccessRate := 2/5, noise := 1/10,
      requiredAccess := .user, grantsAccess := .root,
      requiredServices := [], supportedOs := Option.none },
    { id := "T1110", name := "Brute Force",
      tacticTag := "credential-access", baseSuccessRate := 1/5, noise := 7/10,
      requiredAccess := .none, grantsAccess := .user,
      requiredServices := [.ssh, .rdp, .ftp], supportedOs := Option.none },
    { id := "T1003", name := "OS Credential Dumping",
      tacticTag := "credential-access", baseSuccessRate := 11/20, noise := 2/5,
      requiredAccess := .root, grantsAccess := .root,
      requiredServices := [], supportedOs := Option.none },
    { id := "T1552", name := "Unsecured Credentials",
      tacticTag := "credential-access", baseSuccessRate := 9/20, noise := 3/20,
      requiredAccess := .user, grantsAccess := .user,
      requiredServices := [], supportedOs := Option.none },
    { id := "T1046", name := "Network Service Discovery",
      tacticTag := "discovery", baseSuccessRate := 9/10, noise := 7/20,
      requiredAccess := .user, grantsAccess := .user,
      requiredServices := [], supportedOs := Option.none },
    { id := "T1083", name := "File and Directory Discovery",
      tacticTag := "discovery", baseSuccessRate := 19/20, noise := 1/10,
      requiredAccess := .user, grantsAccess := .user,
      requiredServices := [], supportedOs := Option.none },
    { id := "T1021.001", name := "Remote Desktop Protocol",
      tacticTag := "lateral-movement", baseSuccessRate := 1/2, noise := 3/10,
      requiredAccess := .user, grantsAccess := .user,
      requiredServices := [.rdp], supportedOs := some [.windows] },
    { id := "T1021.004", name := "SSH Lateral Movement",
      tacticTag := "lateral-movement", baseSuccessRate := 11/20, noise := 1/5,
      requiredAccess := .user, grantsAccess := .user,
      requiredServices := [.ssh], supportedOs := some [.linux] },
    { id := "T1021.002", name := "SMB/Windows Admin Shares",
      tacticTag := "lateral-movement", baseSuccessRate := 9/20, noise := 7/20,
      requiredAccess := .root, grantsAccess := .user,
      requiredServices := [.smb], supportedOs := some [.windows] },
    { id := "T1210", name := "Exploitation of Remote Services",
      tacticTag := "lateral-movement", baseSuccessRate := 3/10, noise := 1/2,
      requiredAccess := .user, grantsAccess := .user,
      requiredServices := [.http, .https, .mysql, .postgresql],
      supportedOs := Option.none },
    { id := "T1005", name := "Data from Local System",
      tacticTag := "collection", baseSuccessRate := 17/20, noise := 3/20,
      requiredAccess := .user, grantsAccess := .user,
      requiredServices := [], supportedOs := Option.none },
    { id := "T1039", name := "Data from Network Shared Drive",
      tacticTag := "collection", baseSuccessRate := 3/4, noise := 1/5,
      requiredAccess := .user, grantsAccess := .user,
      requiredServices := [.smb, .ftp], supportedOs := Option.none },
    { id := "T1041", name := "Exfiltration Over C2 Channel",
      tacticTag := "exfiltration", baseSuccessRate := 7/10, noise := 9/20,
      requiredAccess := .user, grantsAccess := .user,
      requiredServices := [], supportedOs := Option.none },
    { id := "T1048", name := "Exfiltration Over Alternative Protocol",
      tacticTag := "exfiltration", baseSuccessRate := 3/5, noise := 1/4,
      requiredAccess := .user, grantsAccess := .user,
      requiredServices := [.dns, .ftp], supportedOs := Option.none } ]

/-- `get_applicable_techniques(node, attacker_access)`. -/
def getApplicableTechniques (node : NodeAttrs) (access : AccessLevel) :
    List Technique :=
  techniqueCatalog.filter fun tq =>
    decide (tq.requiredAccess.rank ≤ access.rank) && tq.applicableTo node

/-- Python's `max(techniques, key=base_success_rate)`: the first technique
attaining the maximal success rate; `none` on an empty list (where the
source would raise). -/
def pickBest : List Technique → Option Technique
  | [] => Option.none
  | t :: rest =>
    some (rest.foldl
      (fun acc tq => if tq.baseSuccessRate > acc.baseSuccessRate then tq else acc) t)

/-! ## Game state (game/state.py, environment/deception.py) -/

/-- `DeceptionAsset`. -/
structure DeceptionAsset where
  assetType : DeceptionType
  nodeId : String
  detectionProbability : ℚ
  cost : ℚ
  triggered : Bool := false
deriving DecidableEq, Repr

/-- The `honeypot(node_id, service)` factory (the service argument does not
appear in the produced record). -/
def honeypotAsset (nid : String) : DeceptionAsset :=
  { assetType := .honeypot, nodeId := nid, detectionProbability := 17/20, cost := 3 }

/-- The `decoy_credential(node_id)` factory. -/
def decoyCredentialAsset (nid : String) : DeceptionAsset :=
  { assetType := .decoyCredential, nodeId := nid,
    detectionProbability := 7/10, cost := 3/2 }

/-- The `honeytoken(node_id)` factory. -/
def honeytokenAsset (nid : String) : DeceptionAsset :=
  { assetType := .honeytoken, nodeId := nid,
    detectionProbability := 1/2, cost := 1 }

/-- `_ASSET_FACTORIES` of agents/stubs.py; an unknown tag is `none` (the
source raises `KeyError` there). -/
def assetFactory : String → Option (String → DeceptionAsset)
  | "honeypot" => some honeypotAsset
  | "decoy_credential" => some decoyCredentialAsset
  | "honeytoken" => some honeytokenAsset
  | _ => Option.none

/-- `DetectionEvent`. -/
structure DetectionEvent where
  round : ℕ
  nodeId : String
  assetType : String
  techniqueId : String
deriving DecidableEq, Repr

/-- An entry of the per-round `actions_log`.  A Python action dict carries
an optional `noise` key; `evaluate_round` reads it with
`action.get("noise", 0.3)`. -/
structure ActionRec where
  action : String
  nodeId : String
  techniqueId : String
  noise : Option ℚ := Option.none
deriving DecidableEq, Repr

/-- `AttackerState` (the `access_levels` dict with its `.get(…, NONE)`
default is a total function here). -/
structure AttackerState where
  position : String
  accessLevels : String → AccessLevel := fun _ => .none
  path : List String := []
  compromisedNodes : List String := []
  exfiltratedValue : ℚ := 0
  detected : Bool := false

/-- `DefenderState`. -/
structure DefenderState where
  budget : ℚ
  deployedAssets : List DeceptionAsset := []
  totalSpent : ℚ := 0
deriving DecidableEq, Repr

/-- `remaining_budget`. -/
def DefenderState.remainingBudget (d : DefenderState) : ℚ :=
  d.budget - d.totalSpent

/-- `deploy`: append the asset and charge its cost when affordable
(`remaining_budget >= cost`), otherwise leave the state unchanged; the
returned flag is the source's boolean result. -/
def DefenderState.deploy (d : DefenderState) (a : DeceptionAsset) :
    DefenderState × Bool :=
  if a.cost ≤ d.remainingBudget then
    ({ d with deployedAssets := d.deployedAssets ++ [a],
              totalSpent := d.totalSpent + a.cost }, true)
  else (d, false)

/-- `assets_on_node`. -/
def DefenderState.assetsOnNode (d : DefenderState) (nid : String) :
    List DeceptionAsset :=
  d.deployedAssets.filter fun a => a.nodeId = nid

/-- `GameState` as carried through the LangGraph loop (the `messages`
channel holds no game data and is omitted). -/
structure GameState where
  topology : Topology
  attacker : AttackerState
  defender : DefenderState
  detections : List DetectionEvent
  actionsLog : List ActionRec
  currentRound : ℕ
  maxRounds : ℕ
  gameOver : Bool
  winner : String

/-! ## Pseudo-random draws -/

/-- State of one `random.Random(seed)` instance: its seed and how many
draws have been consumed. -/
structure Rng where
  seed : ℕ
  idx : ℕ := 0
deriving DecidableEq, Repr

/-- Draw the next uniform value: the ambient draw function `g` applied to
(seed, draw index), advancing the index. -/
def Rng.draw (g : ℕ → ℕ → ℚ) (r : Rng) : ℚ × Rng :=
  (g r.seed r.idx, ⟨r.seed, r.idx + 1⟩)

/-! ## Round evaluation (game/graph.py, `evaluate_round`) -/

/-- The detection threshold `min(detection_probability·(1 + noise), 1.0)`
for one asset and one logged action, with the `action.get("noise", 0.3)`
default. -/
def detectionThreshold (a : DeceptionAsset) (act : ActionRec) : ℚ :=
  min (a.detectionProbability * (1 + act.noise.getD (3/10))) 1

/-- The mutable state threaded through the detection loops of
`evaluate_round`: the deployed-asset list, the round-local PRNG, the
attacker's detected flag, and the detection log. -/
structure DetState where
  assets : List DeceptionAsset
  rng : Rng
  detected : Bool
  detections : List DetectionEvent
deriving Repr

/-- The inner loop of `evaluate_round` for one action: walk the deployed
assets in order; on each not-yet-triggered asset lying on the action's node
draw one uniform value, and when the draw falls below the threshold set the
asset's `triggered` flag, set `detected`, and append a detection event
`(round, node_id, asset kind, technique_id)`. -/
def detectAssets (g : ℕ → ℕ → ℚ) (round : ℕ) (act : ActionRec) :
    List DeceptionAsset → Rng → Bool → List DetectionEvent → DetState
  | [], rng, det, evs => ⟨[], rng, det, evs⟩
  | a :: rest, rng, det, evs =>
    if a.nodeId = act.nodeId ∧ a.triggered = false then
      let r := g rng.seed rng.idx
      let rng2 : Rng := ⟨rng.seed, rng.idx + 1⟩
      if r < detectionThreshold a act then
        let s := detectAssets g round act rest rng2 true
          (evs ++ [⟨round, act.nodeId, a.assetType.str, act.techniqueId⟩])
        ⟨{ a with triggered := true } :: s.assets, s.rng, s.detected, s.detections⟩
      else
        let s := detectAssets g round act rest rng2 det evs
        ⟨a :: s.assets, s.rng, s.detected, s.detections⟩
    else
      let s := detectAssets g round act rest rng det evs
      ⟨a :: s.assets, s.rng, s.detected, s.detections⟩

/-- The outer loop of `evaluate_round` over the pending actions. -/
def processActions (g : ℕ → ℕ → ℚ) (round : ℕ) :
    List ActionRec → DetState → DetState
  | [], s => s
  | act :: rest, s =>
    processActions g round rest
      (detectAssets g round act s.assets s.rng s.detected s.detections)

/-- `evaluate_round(state)`: run detection over the pending actions with a
fresh PRNG seeded by the current round, advance the round counter, clear
the action log, and evaluate the win conditions. -/
def evaluateRound (g : ℕ → ℕ → ℚ) (st : GameState) : GameState :=
  let s := processActions g st.currentRound st.actionsLog
    ⟨st.defender.deployedAssets, ⟨st.currentRound, 0⟩,
      st.attacker.detected, st.detections⟩
  let nextRound := st.currentRound + 1
  let res : Bool × String :=
    if s.detected then (true, "defender")
    else if nextRound > st.maxRounds then
      (true, if st.attacker.exfiltratedValue > 0 then "attacker" else "defender")
    else (false, "")
  { st with
    attacker := { st.attacker with detected := s.detected }
    defender := { st.defender with deployedAssets := s.assets }
    detections := s.detections
    actionsLog := []
    currentRound := nextRound
    gameOver := res.1
    winner := res.2 }

/-! ## Stub agents (agents/stubs.py) -/

/-- The live context a stub node works on, the embedded `GameContext`
(fields the stubs do not touch are carried by the wrapper functions). -/
structure AttackCtx where
  topology : Topology
  attacker : AttackerState
  actions : List ActionRec
  rng : Rng

/-- The lateral-move block of the stub attacker: move to the target, append
it to the path, log a `"move"` action (no noise key, technique
`"lateral_movement"`), and when the target has positive value add it to the
exfiltrated total and log an `"exfiltrate"` action with technique
`"T1041"` and noise 0.45. -/
def moveStage (ctx : AttackCtx) (target : String) : AttackCtx :=
  let attrs := ctx.topology.getAttrs target
  let ctx2 := { ctx with
    attacker := { ctx.attacker with
      position := target, path := ctx.attacker.path ++ [target] }
    actions := ctx.actions ++
      [{ action := "move", nodeId := target,
         techniqueId := "lateral_movement" }] }
  if attrs.value > 0 then
    { ctx2 with
      attacker := { ctx2.attacker with
        exfiltratedValue := ctx2.attacker.exfiltratedValue + attrs.value }
      actions := ctx2.actions ++
        [{ action := "exfiltrate", nodeId := target,
           techniqueId := "T1041", noise := some (9/20) }] }
  else ctx2

/-- The compromise block of the stub attacker: draw one roll; on success
(`roll ≤ base_success_rate`) raise the access level on the target to the
technique's grant when that is higher, and record the node as compromised
(in the attacker state and on the topology) when it is new; in every case
log an `"execute"` action carrying the technique's noise. -/
def executeStage (g : ℕ → ℕ → ℚ) (ctx : AttackCtx) (target : String)
    (best : Technique) : AttackCtx :=
  let d := ctx.rng.draw g
  let ctx1 :=
    if d.1 ≤ best.baseSuccessRate then
      let attacker1 :=
        if best.grantsAccess.rank > (ctx.attacker.accessLevels target).rank then
          { ctx.attacker with accessLevels := fun n =>
              if n = target then best.grantsAccess else ctx.attacker.accessLevels n }
        else ctx.attacker
      if target ∈ ctx.attacker.compromisedNodes then
        { ctx with attacker := attacker1, rng := d.2 }
      else
        { ctx with
          attacker := { attacker1 with
            compromisedNodes := attacker1.compromisedNodes ++ [target] }
          topology := ctx.topology.setCompromised target
          rng := d.2 }
    else { ctx with rng := d.2 }
  { ctx1 with actions := ctx1.actions ++
      [{ action := "execute", nodeId := target,
         techniqueId := best.id, noise := some best.noise }] }

/-- The `for target in path` loop of the stub attacker.  A target equal to
the current position, a target that is not a neighbour of the current
position, and a target with no applicable technique are each skipped
(`continue`); any other target is attempted and ends the round (`break`). -/
def stubAttackerLoop (g : ℕ → ℕ → ℚ) :
    List String → AttackCtx → String → AttackCtx
  | [], ctx, _ => ctx
  | target :: rest, ctx, position =>
    if target = position then stubAttackerLoop g rest ctx position
    else if target ∉ ctx.topology.neighbors position then
      stubAttackerLoop g rest ctx position
    else
      if ctx.attacker.accessLevels target = AccessLevel.none then
        match pickBest (getApplicableTechniques (ctx.topology.getAttrs target)
            (ctx.attacker.accessLevels target)) with
        | Option.none => stubAttackerLoop g rest ctx position
        | some best =>
          let c2 := executeStage g ctx target best
          if c2.attacker.accessLevels target ≠ AccessLevel.none then
            moveStage c2 target
          else c2
      else moveStage ctx target

/-- `create_stub_attacker(path, seed)` applied to a state: build a fresh
context whose PRNG is seeded with `seed` (a fresh `random.Random(seed)` is
created on every round), run the path loop from the attacker's position,
and write back topology, attacker, and this round's action log. -/
def stubAttacker (g : ℕ → ℕ → ℚ) (path : List String) (seed : ℕ)
    (st : GameState) : GameState :=
  let ctx := stubAttackerLoop g path
    ⟨st.topology, st.attacker, [], ⟨seed, 0⟩⟩ st.attacker.position
  { st with topology := ctx.topology, attacker := ctx.attacker,
            actionsLog := ctx.actions }

/-- The deployment loop of `create_stub_defender`: look each asset tag up
in `_ASSET_FACTORIES` (an unknown tag is the source's `KeyError`), build
the asset for the given node id — with no check that the node exists — and
`deploy` it, ignoring the returned flag. -/
def deployActions (d : DefenderState) :
    List (String × String) → Except String DefenderState
  | [] => .ok d
  | (atype, nid) :: rest =>
    match assetFactory atype with
    | Option.none => .error ("KeyError: " ++ atype)
    | some f => deployActions (d.deploy (f nid)).1 rest

/-- `create_stub_defender(actions)` applied to a state. -/
def stubDefender (actions : List (String × String)) (st : GameState) :
    Except String GameState :=
  (deployActions st.defender actions).map fun d =>
    { st with defender := d, actionsLog := [] }

/-! ## Synchronous game runner (evaluation/benchmark.py, game/graph.py) -/

/-- The initial `GameState` built by `create_initial_state` for a validated
entry point. -/
def initState (topo : Topology) (budget : ℚ) (maxRounds : ℕ)
    (entry : String) : GameState :=
  { topology := topo
    attacker := { position := entry, path := [entry] }
    defender := { budget := budget }
    detections := []
    actionsLog := []
    currentRound := 1
    maxRounds := maxRounds
    gameOver := false
    winner := "" }

/-- `create_initial_state(topology, budget, max_rounds, entry_point)`:
errors on an empty entry-point set or an entry point not flagged as one. -/
def createInitialState (topo : Topology) (budget : ℚ) (maxRounds : ℕ)
    (entryPoint : Option String) : Except String GameState :=
  match topo.entryPoints with
  | [] => .error "Topology has no entry points."
  | e0 :: _ =>
    match entryPoint with
    | Option.none => .ok (initState topo budget maxRounds e0)
    | some e =>
      if e ∈ topo.entryPoints then .ok (initState topo budget maxRounds e)
      else .error "not an entry point"

/-- The round loop of `run_game_sync`: up to `max_rounds` iterations of
attacker turn then round evaluation, stopping early once the game is
over. -/
def gameLoop (g : ℕ → ℕ → ℚ) (attackerNode : GameState → GameState) :
    ℕ → GameState → GameState
  | 0, st => st
  | n + 1, st =>
    let st2 := evaluateRound g (attackerNode st)
    if st2.gameOver then st2 else gameLoop g attackerNode n st2

/-- `run_game_sync(topology, budget, max_rounds, seed, defender_actions,
attacker_path)`: entry point from the path head (or the first entry point),
initial state, one defender setup pass, then the round loop. -/
def runGameSync (g : ℕ → ℕ → ℚ) (topo : Topology) (budget : ℚ)
    (maxRounds : ℕ) (seed : ℕ) (defenderActions : List (String × String))
    (attackerPath : List String) : Except String GameState := do
  let entry ← match attackerPath with
    | p0 :: _ => Except.ok p0
    | [] =>
      match topo.entryPoints with
      | e :: _ => Except.ok e
      | [] => Except.error "IndexError: no entry points"
  let st0 ← createInitialState topo budget maxRounds (some entry)
  let st1 ← stubDefender defenderActions st0
  Except.ok (gameLoop g (stubAttacker g attackerPath seed) maxRounds st1)

/-! ## Concrete fixtures used by the theorems below -/

/-- A constant draw function: every uniform draw is 0. -/
def g0 : ℕ → ℕ → ℚ := fun _ _ => 0

/-- Two isolated nodes whose values differ by `5e-9`, i.e. by less than the
`1e-8` tie tolerance of the best-response scan. -/
def topoC1 : Topology where
  nodes :=
    [ ("A", { nodeType := .server, os := .linux, services := [], value := 1 }),
      ("B", { nodeType := .server, os := .linux, services := [],
              value := 1 + 1/200000000 }) ]
  edges := []

/-- A single node of value 10000. -/
def topoC3 : Topology where
  nodes :=
    [ ("A", { nodeType := .server, os := .linux, services := [],
              value := 10000, isEntryPoint := true }) ]
  edges := []

/-- Budget `3 − 1e-9`: one honeypot costs more, but fits the greedy
allocator's `cost ≤ remaining + 1e-8` test. -/
def bC3 : ℚ := 3 - 1/1000000000

/-- The exact optimum of `LP("A")` on `topoC3` with budget `bC3`: the
honeypot fraction is reduced to fit the budget exactly, topping the row up
with decoy-credential coverage. -/
def cC3 : Coverage := fun t a =>
  if t = "A" then
    match a with
    | .honeypot => 1 - 1/1500000000
    | .decoyCredential => 1/1500000000
    | .honeytoken => 0
  else 0

/-- The solver output for `topoC3`, budget `bC3`, alpha = beta = 1. -/
def solC3 : StackelbergSolution :=
  mkSolutionFromLP topoC3 { alpha := 1, beta := 1 } "A" cC3

/-- A single zero-value entry node, used as a degenerate but well-formed
topology for witnesses. -/
def topoC9 : Topology where
  nodes :=
    [ ("A", { nodeType := .server, os := .linux, services := [],
              value := 0, isEntryPoint := true }) ]
  edges := []

/-- The zero-coverage solver output on `topoC9` with budget 0. -/
def solC9zero : StackelbergSolution :=
  mkSolutionFromLP topoC9 { alpha := 1, beta := 1 } "A" (fun _ _ => 0)

/-- The zero-coverage solver output on `smallEnterprise` with budget 0,
targeting the unique maximum-value node `db-2`. -/
def solC2 : StackelbergSolution :=
  mkSolutionFromLP smallEnterprise { alpha := 1, beta := 1 } "db-2" (fun _ _ => 0)

/-- Entry node `E` adjacent to `Y` only; `X` is isolated, so a path through
`X` hits the non-neighbour branch of the stub attacker. -/
def topoC8 : Topology where
  nodes :=
    [ ("E", { nodeType := .server, os := .linux, services := [],
              value := 0, isEntryPoint := true }),
      ("X", { nodeType := .server, os := .linux, services := [], value := 0 }),
      ("Y", { nodeType := .server, os := .linux, services := [.http],
              value := 0 }) ]
  edges := [("E", "Y")]

/-- Fresh game state on `topoC8` with the attacker at `E`. -/
def stC8 : GameState := initState topoC8 10 5 "E"

/-- The attacker context at the start of the `stC8` round with seed 42. -/
def ctxC8 : AttackCtx := ⟨stC8.topology, stC8.attacker, [], ⟨42, 0⟩⟩

/-- A state on `topoC9` with a honeypot on `A` and one pending lateral-move
action on `A`, about to be evaluated in round 1 of 3. -/
def stDet : GameState :=
  { topology := topoC9
    attacker := { position := "A", path := ["A"] }
    defender := { budget := 10, deployedAssets := [honeypotAsset "A"],
                  totalSpent := 3 }
    detections := []
    actionsLog := [{ action := "move", nodeId := "A",
                     techniqueId := "lateral_movement" }]
    currentRound := 1
    maxRounds := 3
    gameOver := false
    winner := "" }

/-- The pending lateral-move action of `stDet`. -/
def actMove : ActionRec :=
  { action := "move", nodeId := "A", techniqueId := "lateral_movement" }

/-- A quiet final-round state on `topoC9`: no pending actions, no assets,
round counter already at `max_rounds`. -/
def stRound : GameState :=
  { topology := topoC9
    attacker := { position := "A", path := ["A"] }
    defender := { budget := 10 }
    detections := []
    actionsLog := []
    currentRound := 3
    maxRounds := 3
    gameOver := false
    winner := "" }

/-- The loop invariant of the `_attacker_best_response` scan over the
prefix `done` of the node list: the chosen target was seen, every seen
attacker EU is at most the running best plus the `1e-8` tolerance, the
running best is within `1e-8` of the chosen target's attacker EU, and the
reported defender EU is exactly the chosen target's. -/
def RespOk (params : UtilityParams) (vals dp : String → ℚ)
    (done : List String) (b : BestResp) : Prop :=
  b.target ∈ done ∧
  (∀ t ∈ done, attackerEU params (dp t) (vals t) ≤ b.attackerVal + epsTol) ∧
  |b.attackerVal - attackerEU params (dp b.target) (vals b.target)| < epsTol ∧
  b.defenderVal = defenderEU params (dp b.target) (vals b.target)

/-- `RespOk` lifted to the optional accumulator: `none` only before any
node has been scanned. -/
def RespInv (params : UtilityParams) (vals dp : String → ℚ)
    (done : List String) : Option BestResp → Prop
  | Option.none => done = []
  | some b => RespOk params vals dp done b

/-! ## Theorems: attacker best response (claim C1) -/

theorem epsTol_pos : (0:ℚ) < epsTol := by norm_num [epsTol]

theorem specTol_pos : (0:ℚ) < specTol := by norm_num [specTol]

theorem respInv_step (params : UtilityParams) (vals dp : String → ℚ)
    (done : List String) (acc : Option BestResp) (nid : String)
    (h : RespInv params vals dp done acc) :
    RespInv params vals dp (done ++ [nid]) (bestRespStep params vals dp acc nid) := by
  cases acc with
  | none =>
    simp only [RespInv] at h
    subst h
    simp only [bestRespStep, RespInv, RespOk]
    refine ⟨by simp, ?_, by simpa using epsTol_pos, by trivial⟩
    intro t ht
    simp only [List.nil_append, List.mem_singleton] at ht
    subst ht
    have := epsTol_pos
    linarith
  | some b =>
    simp only [RespInv, RespOk] at h
    obtain ⟨hmem, hub, habs, hdeu⟩ := h
    simp only [bestRespStep]
    split_ifs with h1 h2
    · simp only [RespInv, RespOk]
      refine ⟨by simp, ?_, by simpa using epsTol_pos, by trivial⟩
      intro t ht
      have hep := epsTol_pos
      rcases List.mem_append.mp ht with ht | ht
      · have := hub t ht; linarith
      · simp only [List.mem_singleton] at ht
        subst ht
        linarith
    · obtain ⟨habs2, hdgt⟩ := h2
      simp only [RespInv, RespOk]
      refine ⟨by simp, ?_, by rwa [abs_sub_comm] at habs2, by trivial⟩
      intro t ht
      rcases List.mem_append.mp ht with ht | ht
      · exact hub t ht
      · simp only [List.mem_singleton] at ht
        subst ht
        have h3 := abs_lt.mp habs2
        linarith [h3.1, h3.2]
    · simp only [RespInv, RespOk]
      refine ⟨List.mem_append.mpr (Or.inl hmem), ?_, habs, hdeu⟩
      intro t ht
      rcases List.mem_append.mp ht with ht | ht
      · exact hub t ht
      · simp only [List.mem_singleton] at ht
        subst ht
        push_neg at h1
        linarith

theorem respInv_foldl (params : UtilityParams) (vals dp : String → ℚ) :
    ∀ (l done : List String) (acc : Option BestResp),
      RespInv params vals dp done acc →
      RespInv params vals dp (done ++ l) (l.foldl (bestRespStep params vals dp) acc)
  | [], done, acc, h => by simpa using h
  | nid :: rest, done, acc, h => by
    have h2 := respInv_step params vals dp done acc nid h
    have h3 := respInv_foldl params vals dp rest (done ++ [nid]) _ h2
    simpa [List.append_assoc] using h3

theorem attackerBestResponse_respOk (topo : Topology) (dp : String → ℚ)
    (params : UtilityParams) (b : BestResp)
    (hb : attackerBestResponse topo dp params = some b) :
    RespOk params topo.value dp topo.nodeIds b := by
  have h := respInv_foldl params topo.value dp topo.nodeIds [] none rfl
  rw [List.nil_append] at h
  rw [attackerBestResponse] at hb
  rw [hb] at h
  exact h

theorem attackerBestResponse_isSome (topo : Topology) (dp : String → ℚ)
    (params : UtilityParams) (hne : topo.nodeIds ≠ []) :
    ∃ b, attackerBestResponse topo dp params = some b := by
  cases hb : attackerBestResponse topo dp params with
  | some b => exact ⟨b, rfl⟩
  | none =>
    exfalso
    have h := respInv_foldl params topo.value dp topo.nodeIds [] none rfl
    rw [List.nil_append] at h
    rw [attackerBestResponse] at hb
    rw [hb] at h
    exact hne h

/-- C1 (amended).  The best-response operator of `_attacker_best_response`
returns a target in the node set whose attacker EU is within `2·1e-8` of
the maximal attacker EU over all nodes (hence best-response consistency
holds within the spec's `1e-6`); the reported defender EU is exactly the
chosen target's, and the reported attacker EU is within `1e-8` of the
chosen target's.  The claim's exact maximisation fails (see the
counterexample): near-ties within `1e-8` are resolved towards the greater
defender EU, which can retain a target whose attacker EU is up to `2·1e-8`
below the maximum. -/
theorem c1_best_response (topo : Topology) (dp : String → ℚ)
    (params : UtilityParams) (b : BestResp)
    (hb : attackerBestResponse topo dp params = some b) :
    b.target ∈ topo.nodeIds ∧
    (∀ t ∈ topo.nodeIds,
      attackerEU params (dp t) (topo.value t) - 2 * epsTol
        ≤ attackerEU params (dp b.target) (topo.value b.target)) ∧
    b.defenderVal = defenderEU params (dp b.target) (topo.value b.target) ∧
    |b.attackerVal - attackerEU params (dp b.target) (topo.value b.target)| < epsTol := by
  obtain ⟨hmem, hub, habs, hdeu⟩ := attackerBestResponse_respOk topo dp params b hb
  refine ⟨hmem, ?_, hdeu, habs⟩
  intro t ht
  have h1 := hub t ht
  have h2 := abs_lt.mp habs
  linarith [h2.1, h2.2]

/-- C1 witness: the amended theorem applied to the `small_enterprise`
preset with zero detection probabilities, where the scan returns `db-2`
with attacker EU 10 and defender EU −10. -/
theorem c1_best_response_witness :
    attackerBestResponse smallEnterprise (fun _ => 0) { alpha := 1, beta := 1 }
        = some ⟨"db-2", 10, -10⟩ ∧
    (⟨"db-2", 10, -10⟩ : BestResp).target ∈ smallEnterprise.nodeIds ∧
    (∀ t ∈ smallEnterprise.nodeIds,
      attackerEU { alpha := 1, beta := 1 } 0 (smallEnterprise.value t) - 2 * epsTol
        ≤ attackerEU { alpha := 1, beta := 1 } 0 (smallEnterprise.value "db-2")) := by
  have hb : attackerBestResponse smallEnterprise (fun _ => 0)
      { alpha := 1, beta := 1 } = some ⟨"db-2", 10, -10⟩ := by
    simp only [attackerBestResponse, Topology.nodeIds, smallEnterprise,
      List.map_cons, List.map_nil, List.foldl_cons, List.foldl_nil]
    simp [bestRespStep, Topology.value, Topology.getAttrs, List.lookup]
    norm_num [attackerEU, defenderEU, epsTol, abs_sub_lt_iff]
  have h := c1_best_response smallEnterprise (fun _ => 0)
    { alpha := 1, beta := 1 } ⟨"db-2", 10, -10⟩ hb
  exact ⟨hb, h.1, h.2.1⟩

/-- C1 counterexample: on two nodes of values 1 and `1 + 5e-9` (attacker
EUs differing by less than the `1e-8` tie tolerance) with zero detection
probabilities, the scan returns node `A`, whose attacker EU is strictly
below node `B`'s — so the operator does not maximise the attacker EU over
all nodes as the claim states. -/
theorem c1_counterexample :
    attackerBestResponse topoC1 (fun _ => 0) { alpha := 1, beta := 1 }
        = some ⟨"A", 1, -1⟩ ∧
    "B" ∈ topoC1.nodeIds ∧
    ¬ (attackerEU { alpha := 1, beta := 1 } 0 (topoC1.value "B")
        ≤ attackerEU { alpha := 1, beta := 1 } 0 (topoC1.value "A")) := by
  refine ⟨?_, by decide, ?_⟩
  · simp only [attackerBestResponse, Topology.nodeIds, topoC1,
      List.map_cons, List.map_nil, List.foldl_cons, List.foldl_nil]
    simp [bestRespStep, Topology.value, Topology.getAttrs, List.lookup]
    norm_num [attackerEU, defenderEU, epsTol, abs_sub_lt_iff]
  · simp [topoC1, Topology.value, Topology.getAttrs, List.lookup, attackerEU]

/-! ## Theorems: the solver LP at zero budget (claim C2) -/

theorem assetCost_pos : ∀ a ∈ assetTypes, 0 < assetCost a := by
  intro a _
  cases a <;> norm_num [assetCost]

theorem lpFeasible_cov_zero (topo : Topology) (B : ℚ) (params : UtilityParams)
    (tstar : String) (c : Coverage) (hB : B ≤ 0)
    (hf : lpFeasible topo B params tstar c) :
    ∀ t ∈ topo.nodeIds, ∀ a ∈ assetTypes, c t a = 0 := by
  obtain ⟨hbound, -, hbud, -⟩ := hf
  have hterm : ∀ u ∈ topo.nodeIds, ∀ x ∈ assetTypes.map fun a => c u a * assetCost a, 0 ≤ x := by
    intro u hu x hx
    obtain ⟨b, hb, rfl⟩ := List.mem_map.mp hx
    exact mul_nonneg (hbound u hu b hb).1 (le_of_lt (assetCost_pos b hb))
  have hinner : ∀ u ∈ topo.nodeIds, 0 ≤ (assetTypes.map fun a => c u a * assetCost a).sum := by
    intro u hu
    exact List.sum_nonneg (hterm u hu)
  intro t ht a ha
  have htot : (assetTypes.map fun a => c t a * assetCost a).sum ≤ 0 := by
    have hmem : (assetTypes.map fun a => c t a * assetCost a).sum ∈
        topo.nodeIds.map fun u => (assetTypes.map fun a => c u a * assetCost a).sum :=
      List.mem_map_of_mem _ ht
    have hle := List.single_le_sum (l := topo.nodeIds.map fun u =>
      (assetTypes.map fun a => c u a * assetCost a).sum) ?_ _ hmem
    · exact le_trans hle (le_trans hbud hB)
    · intro x hx
      obtain ⟨u, hu, rfl⟩ := List.mem_map.mp hx
      exact hinner u hu
  have hzero : (assetTypes.map fun a => c t a * assetCost a).sum = 0 :=
    le_antisymm htot (hinner t ht)
  have hmem2 : c t a * assetCost a ∈ assetTypes.map fun b => c t b * assetCost b :=
    List.mem_map_of_mem _ ha
  have hle2 := List.single_le_sum (hterm t ht) _ hmem2
  rw [hzero] at hle2
  have heq : c t a * assetCost a = 0 :=
    le_antisymm hle2 (by
      obtain ⟨b, hb, hbe⟩ := List.mem_map.mp hmem2
      exact mul_nonneg (hbound t ht a ha).1 (le_of_lt (assetCost_pos a ha)))
  rcases mul_eq_zero.mp heq with h | h
  · exact h
  · exact absurd h (ne_of_gt (assetCost_pos a ha))

theorem effDetProb_zero_of (c : Coverage) (t : String)
    (h : ∀ a ∈ assetTypes, c t a = 0) : effDetProb c t = 0 := by
  apply List.sum_eq_zero
  intro x hx
  obtain ⟨a, ha, rfl⟩ := List.mem_map.mp hx
  rw [h a ha, zero_mul]

theorem value_le_of_zero_budget (topo : Topology) (B : ℚ)
    (params : UtilityParams) (tstar : String) (c : Coverage) (hB : B ≤ 0)
    (hst : tstar ∈ topo.nodeIds) (hf : lpFeasible topo B params tstar c) :
    ∀ t ∈ topo.nodeIds, topo.value t ≤ topo.value tstar := by
  intro t ht
  by_cases hTT : t = tstar
  · subst hTT; exact le_refl _
  · have hc := lpFeasible_cov_zero topo B params tstar c hB hf
    have h1 : effDetProb c t = 0 := effDetProb_zero_of c t (hc t ht)
    have h2 : effDetProb c tstar = 0 := effDetProb_zero_of c tstar (hc tstar hst)
    have h3 := hf.2.2.2 t ht hTT
    rw [h1, h2] at h3
    simp only [zero_mul, sub_zero, zero_sub, neg_zero] at h3
    linarith

theorem smallEnterprise_value_db2 : smallEnterprise.value "db-2" = 10 := by
  simp [smallEnterprise, Topology.value, Topology.getAttrs, List.lookup]

theorem smallEnterprise_value_le :
    ∀ t ∈ smallEnterprise.nodeIds, smallEnterprise.value t ≤ 10 := by
  intro t ht
  have hids : smallEnterprise.nodeIds =
      ["fw-ext", "web-1", "web-2", "router-1", "ws-1", "ws-2", "ws-3",
       "app-1", "db-1", "db-2"] := rfl
  rw [hids] at ht
  fin_cases ht <;>
    (simp [smallEnterprise, Topology.value, Topology.getAttrs, List.lookup]
     <;> norm_num)

/-- C2.  On the `small_enterprise` preset with budget 0 and alpha = beta
= 1, every solver output targets a node of value 10 (`db-2`, the unique
maximum), reports defender expected utility exactly −10 (so within `1e-6`
of −10.0), and has effective detection probability below `1e-8` at every
node. -/
theorem c2_small_zero_budget (sol : StackelbergSolution)
    (h : SolveSpec smallEnterprise 0 { alpha := 1, beta := 1 } sol) :
    sol.attackerTarget ∈ smallEnterprise.nodeIds ∧
    smallEnterprise.value sol.attackerTarget = 10 ∧
    sol.defenderExpectedUtility = -10 ∧
    ∀ t ∈ smallEnterprise.nodeIds, sol.detectionProbabilities t < epsTol := by
  obtain ⟨⟨tstar, c, hmem, hfeas, hopt, hsol⟩, hglob⟩ := h
  have hc := lpFeasible_cov_zero smallEnterprise 0 _ tstar c le_rfl hfeas
  have hvmax := value_le_of_zero_budget smallEnterprise 0 _ tstar c le_rfl hmem hfeas
  have hdb : "db-2" ∈ smallEnterprise.nodeIds := by decide
  have hv10 : smallEnterprise.value tstar = 10 :=
    le_antisymm (smallEnterprise_value_le tstar hmem)
      (smallEnterprise_value_db2 ▸ hvmax "db-2" hdb)
  have hp0 : ∀ t ∈ smallEnterprise.nodeIds, effDetProb c t = 0 := fun t ht =>
    effDetProb_zero_of c t (hc t ht)
  subst hsol
  refine ⟨hmem, hv10, ?_, ?_⟩
  · simp only [mkSolutionFromLP, lpObjective, hp0 tstar hmem, hv10, zero_mul]
    norm_num
  · intro t ht
    simp only [mkSolutionFromLP, hp0 t ht]
    simpa using epsTol_pos

theorem solveSpec_solC2 :
    SolveSpec smallEnterprise 0 { alpha := 1, beta := 1 } solC2 := by
  have hdb : "db-2" ∈ smallEnterprise.nodeIds := by decide
  have hzero : ∀ t, effDetProb (fun _ _ => 0) t = 0 := by
    intro t
    simp [effDetProb, assetTypes]
  have hfeas0 : lpFeasible smallEnterprise 0 { alpha := 1, beta := 1 }
      "db-2" (fun _ _ => 0) := by
    refine ⟨?_, ?_, ?_, ?_⟩
    · intro t _ a _
      norm_num
    · intro t _
      norm_num [nodeCovSum, assetTypes]
    · apply le_of_eq
      apply List.sum_eq_zero
      intro x hx
      obtain ⟨u, hu, rfl⟩ := List.mem_map.mp hx
      norm_num [assetTypes]
    · intro t ht hne
      rw [hzero t, hzero "db-2"]
      have h1 := smallEnterprise_value_le t ht
      rw [smallEnterprise_value_db2]
      simp only [zero_mul, sub_zero, zero_sub, neg_zero]
      linarith
  constructor
  · refine ⟨"db-2", fun _ _ => 0, hdb, hfeas0, ?_, rfl⟩
    intro c2 hf2
    have h0 : effDetProb c2 "db-2" = 0 :=
      effDetProb_zero_of c2 "db-2"
        (lpFeasible_cov_zero smallEnterprise 0 _ "db-2" c2 le_rfl hf2 "db-2" hdb)
    simp [lpObjective, h0, hzero "db-2"]
  · intro tstar c hmem hf
    have h0 : effDetProb c tstar = 0 :=
      effDetProb_zero_of c tstar
        (lpFeasible_cov_zero smallEnterprise 0 _ tstar c le_rfl hf tstar hmem)
    have hge : (10:ℚ) ≤ smallEnterprise.value tstar :=
      smallEnterprise_value_db2 ▸
        value_le_of_zero_budget smallEnterprise 0 _ tstar c le_rfl hmem hf "db-2" hdb
    have hsol : solC2.defenderExpectedUtility = -10 := by
      simp only [solC2, mkSolutionFromLP, lpObjective, hzero "db-2",
        smallEnterprise_value_db2, zero_mul]
      norm_num
    rw [hsol, lpObjective, h0, zero_mul]
    linarith

/-- C2 witness: the zero-coverage solution targeting `db-2` satisfies the
solver specification at budget 0 on the preset, and the claim theorem
applies to it. -/
theorem c2_small_zero_budget_witness :
    SolveSpec smallEnterprise 0 { alpha := 1, beta := 1 } solC2 ∧
    solC2.attackerTarget ∈ smallEnterprise.nodeIds ∧
    smallEnterprise.value solC2.attackerTarget = 10 ∧
    solC2.defenderExpectedUtility = -10 ∧
    (∀ t ∈ smallEnterprise.nodeIds, solC2.detectionProbabilities t < epsTol) := by
  have h := c2_small_zero_budget solC2 solveSpec_solC2
  exact ⟨solveSpec_solC2, h.1, h.2.1, h.2.2.1, h.2.2.2⟩

/-! ## Theorems: SSE dominance over the baselines (claim C3) -/

theorem buildSolution_coverage (topo : Topology) (cov : Coverage)
    (params : UtilityParams) : (buildSolution topo cov params).coverage = cov := by
  cases hb : attackerBestResponse topo (fun t => effDetProb cov t) params <;>
    simp [buildSolution, hb]

theorem sse_dominates_feasible (topo : Topology) (B : ℚ)
    (params : UtilityParams) (sol : StackelbergSolution)
    (hs : SolveSpec topo B params sol) (cov : Coverage)
    (hne : topo.nodeIds ≠ [])
    (hf : lpFeasible topo B params
      (buildSolution topo cov params).attackerTarget cov) :
    (buildSolution topo cov params).defenderExpectedUtility - specTol
      ≤ sol.defenderExpectedUtility := by
  obtain ⟨b, hb⟩ :=
    attackerBestResponse_isSome topo (fun t => effDetProb cov t) params hne
  obtain ⟨hmem, -, -, hdeu⟩ :=
    attackerBestResponse_respOk topo (fun t => effDetProb cov t) params b hb
  have hbs1 : (buildSolution topo cov params).attackerTarget = b.target := by
    simp only [buildSolution, hb]
  have hbs2 : (buildSolution topo cov params).defenderExpectedUtility
      = b.defenderVal := by
    simp only [buildSolution, hb]
  rw [hbs2, hdeu]
  have hkey := hs.2 b.target cov hmem (hbs1 ▸ hf)
  have halg : defenderEU params (effDetProb cov b.target) (topo.value b.target)
      = lpObjective topo params b.target cov - topo.value b.target := by
    simp only [defenderEU, lpObjective, deltaD]
    ring
  rw [halg]
  have := specTol_pos
  linarith

/-- C3 (amended).  On every topology with at least one node, every budget
and utility parameters, the defender EU of any solver output dominates the
defender EU reported by each of the three baselines within `1e-6`,
provided the baseline's coverage together with its reported attacker
target is a feasible point of the solver's LP for that target (in
particular its cost must be within `B` — the greedy baselines may overspend
by up to `1e-8`, which breaks unconditional dominance, see the
counterexample). -/
theorem c3_sse_dominance (topo : Topology) (B : ℚ) (params : UtilityParams)
    (sol : StackelbergSolution) (hs : SolveSpec topo B params sol)
    (hne : topo.nodeIds ≠ []) :
    (lpFeasible topo B params (uniformBaseline topo B params).attackerTarget
        (uniformBaseline topo B params).coverage →
      (uniformBaseline topo B params).defenderExpectedUtility - specTol
        ≤ sol.defenderExpectedUtility) ∧
    (lpFeasible topo B params (staticBaseline topo B params).attackerTarget
        (staticBaseline topo B params).coverage →
      (staticBaseline topo B params).defenderExpectedUtility - specTol
        ≤ sol.defenderExpectedUtility) ∧
    (lpFeasible topo B params (heuristicBaseline topo B params).attackerTarget
        (heuristicBaseline topo B params).coverage →
      (heuristicBaseline topo B params).defenderExpectedUtility - specTol
        ≤ sol.defenderExpectedUtility) := by
  refine ⟨?_, ?_, ?_⟩
  · intro hf
    rw [uniformBaseline] at hf ⊢
    rw [buildSolution_coverage] at hf
    exact sse_dominates_feasible topo B params sol hs _ hne hf
  · intro hf
    rw [staticBaseline] at hf ⊢
    rw [buildSolution_coverage] at hf
    exact sse_dominates_feasible topo B params sol hs _ hne hf
  · intro hf
    rw [heuristicBaseline] at hf ⊢
    rw [buildSolution_coverage] at hf
    exact sse_dominates_feasible topo B params sol hs _ hne hf

theorem topoC9_value : topoC9.value "A" = 0 := by
  simp [topoC9, Topology.value, Topology.getAttrs, List.lookup]

theorem lpObjective_topoC9 (params : UtilityParams) (c : Coverage) :
    lpObjective topoC9 params "A" c = 0 := by
  simp [lpObjective, topoC9_value, deltaD]

theorem lpFeasible_topoC9_zero :
    lpFeasible topoC9 0 { alpha := 1, beta := 1 } "A" (fun _ _ => 0) := by
  refine ⟨?_, ?_, ?_, ?_⟩
  · intro t _ a _
    norm_num
  · intro t _
    norm_num [nodeCovSum, assetTypes]
  · apply le_of_eq
    apply List.sum_eq_zero
    intro x hx
    obtain ⟨u, hu, rfl⟩ := List.mem_map.mp hx
    norm_num [assetTypes]
  · intro t ht hne
    have : t = "A" := by
      simpa [topoC9, Topology.nodeIds] using ht
    exact absurd this hne

theorem solveSpec_solC9zero :
    SolveSpec topoC9 0 { alpha := 1, beta := 1 } solC9zero := by
  have hmem : "A" ∈ topoC9.nodeIds := by decide
  have hdef : solC9zero.defenderExpectedUtility = 0 := by
    simp [solC9zero, mkSolutionFromLP, lpObjective_topoC9, topoC9_value]
  constructor
  · refine ⟨"A", fun _ _ => 0, hmem, lpFeasible_topoC9_zero, ?_, rfl⟩
    intro c2 _
    rw [lpObjective_topoC9, lpObjective_topoC9]
  · intro tstar c ht hf
    have hA : tstar = "A" := by
      simpa [topoC9, Topology.nodeIds] using ht
    subst hA
    rw [lpObjective_topoC9, topoC9_value, hdef]
    norm_num

/-- C3 witness: on the one-node zero-value topology with budget 0 the
static baseline's coverage is LP-feasible at its reported target, and the
amended dominance bound holds for the zero-coverage solver output. -/
theorem c3_sse_dominance_witness :
    SolveSpec topoC9 0 { alpha := 1, beta := 1 } solC9zero ∧
    ((staticBaseline topoC9 0 { alpha := 1, beta := 1 }).defenderExpectedUtility
        - specTol ≤ solC9zero.defenderExpectedUtility) := by
  have hcov : (staticBaseline topoC9 0 { alpha := 1, beta := 1 }).coverage
      = fun _ _ => (0:ℚ) := by
    rw [staticBaseline, buildSolution_coverage]
    have h1 : ¬ ¬ ((0:ℚ) < assetCost .honeytoken) := by norm_num [assetCost]
    simp [greedyAllocate, greedyAllocateAux, assetCost]
  have htgt : (staticBaseline topoC9 0 { alpha := 1, beta := 1 }).attackerTarget
      = "A" := by
    rw [staticBaseline]
    have hc : greedyAllocate 0 (sortByDesc topoC9.value topoC9.nodeIds)
        = fun _ _ => (0:ℚ) := by
      simp [greedyAllocate, greedyAllocateAux, sortByDesc, insertDesc,
        topoC9, Topology.nodeIds, assetCost]
    rw [hc]
    simp [buildSolution, attackerBestResponse, bestRespStep, topoC9,
      Topology.nodeIds]
  have hf : lpFeasible topoC9 0 { alpha := 1, beta := 1 }
      (staticBaseline topoC9 0 { alpha := 1, beta := 1 }).attackerTarget
      (staticBaseline topoC9 0 { alpha := 1, beta := 1 }).coverage := by
    rw [hcov, htgt]
    exact lpFeasible_topoC9_zero
  have h := (c3_sse_dominance topoC9 0 { alpha := 1, beta := 1 } solC9zero
    solveSpec_solC9zero (by decide)).2.1 hf
  exact ⟨solveSpec_solC9zero, h⟩

theorem topoC3_value : topoC3.value "A" = 10000 := by
  simp [topoC3, Topology.value, Topology.getAttrs, List.lookup]

theorem staticBaseline_topoC3_defEU :
    (staticBaseline topoC3 bC3 { alpha := 1, beta := 1 }).defenderExpectedUtility
      = 7000 := by
  have hrank : sortByDesc topoC3.value topoC3.nodeIds = ["A"] := rfl
  have hnot : ¬ (bC3 < (1:ℚ)) := by norm_num [bC3]
  have hcost : (3:ℚ) ≤ bC3 + epsTol := by norm_num [bC3, epsTol]
  have hcov : greedyAllocate bC3 ["A"] =
      fun t b => if t = "A" then
        (if b = DeceptionType.honeypot then 1 else 0) else 0 := by
    simp [greedyAllocate, greedyAllocateAux, greedyBuy, assetPreference,
      assetCost, hnot, hcost]
  have hdet : ∀ t, effDetProb (fun t b => if t = "A" then
      (if b = DeceptionType.honeypot then 1 else 0) else 0) t
      = if t = "A" then 17/20 else 0 := by
    intro t
    by_cases h : t = "A" <;> simp [effDetProb, assetTypes, assetDetProb, h]
  rw [staticBaseline, hrank, hcov]
  simp only [buildSolution, attackerBestResponse, Topology.nodeIds, topoC3,
    List.map_cons, List.map_nil, List.foldl_cons, List.foldl_nil, bestRespStep,
    hdet]
  norm_num [topoC3_value, attackerEU, defenderEU, Topology.value,
    Topology.getAttrs, List.lookup, topoC3]

theorem lpFeasible_topoC3_extract (c : Coverage)
    (hf : lpFeasible topoC3 bC3 { alpha := 1, beta := 1 } "A" c) :
    0 ≤ c "A" .honeypot ∧ 0 ≤ c "A" .decoyCredential ∧ 0 ≤ c "A" .honeytoken ∧
    c "A" .honeypot + c "A" .decoyCredential + c "A" .honeytoken ≤ 1 ∧
    c "A" .honeypot * 3 + c "A" .decoyCredential * (3/2)
      + c "A" .honeytoken * 1 ≤ bC3 := by
  obtain ⟨hb, hsum, hbud, -⟩ := hf
  have hA : "A" ∈ topoC3.nodeIds := by decide
  have h1 := (hb "A" hA .honeypot (by decide)).1
  have h2 := (hb "A" hA .decoyCredential (by decide)).1
  have h3 := (hb "A" hA .honeytoken (by decide)).1
  have h4 := hsum "A" hA
  simp only [nodeCovSum, assetTypes, List.map_cons, List.map_nil,
    List.sum_cons, List.sum_nil] at h4
  simp only [budgetUsed, Topology.nodeIds, topoC3, List.map_cons, List.map_nil,
    List.sum_cons, List.sum_nil, assetTypes, assetCost] at hbud
  refine ⟨h1, h2, h3, by linarith, by linarith⟩

theorem effDetProb_topoC3 (c : Coverage) :
    effDetProb c "A" = c "A" .honeypot * (17/20)
      + c "A" .decoyCredential * (7/10) + c "A" .honeytoken * (1/2) := by
  simp only [effDetProb, assetTypes, List.map_cons, List.map_nil,
    List.sum_cons, List.sum_nil, assetDetProb]
  ring

theorem lpObjective_topoC3_bound (c : Coverage)
    (hf : lpFeasible topoC3 bC3 { alpha := 1, beta := 1 } "A" c) :
    lpObjective topoC3 { alpha := 1, beta := 1 } "A" c
      ≤ 17000 - 1/500000 := by
  obtain ⟨h1, h2, h3, h4, h5⟩ := lpFeasible_topoC3_extract c hf
  rw [lpObjective, effDetProb_topoC3, topoC3_value]
  have hb : bC3 = 3 - 1/1000000000 := rfl
  rw [hb] at h5
  simp only [deltaA, deltaD]
  nlinarith [h1, h2, h3, h4, h5]

theorem solveSpec_solC3 :
    SolveSpec topoC3 bC3 { alpha := 1, beta := 1 } solC3 := by
  have hA : "A" ∈ topoC3.nodeIds := by decide
  have honly : ∀ t ∈ topoC3.nodeIds, t = "A" := by decide
  have hobjC3 : lpObjective topoC3 { alpha := 1, beta := 1 } "A" cC3
      = 17000 - 1/500000 := by
    rw [lpObjective, effDetProb_topoC3, topoC3_value]
    simp only [deltaD, cC3]
    norm_num
  have hfeas : lpFeasible topoC3 bC3 { alpha := 1, beta := 1 } "A" cC3 := by
    refine ⟨?_, ?_, ?_, ?_⟩
    · intro t ht a _
      rw [honly t ht]
      cases a <;> norm_num [cC3]
    · intro t ht
      rw [honly t ht]
      norm_num [nodeCovSum, assetTypes, cC3]
    · simp only [budgetUsed, Topology.nodeIds, topoC3, List.map_cons,
        List.map_nil, List.sum_cons, List.sum_nil, assetTypes, assetCost, cC3]
      norm_num [bC3]
    · intro t ht hne
      exact absurd (honly t ht) hne
  constructor
  · refine ⟨"A", cC3, hA, hfeas, ?_, rfl⟩
    intro c2 hf2
    rw [hobjC3]
    exact lpObjective_topoC3_bound c2 hf2
  · intro tstar c ht hf
    rw [honly tstar ht] at hf ⊢
    have hdef : solC3.defenderExpectedUtility
        = 17000 - 1/500000 - 10000 := by
      simp only [solC3, mkSolutionFromLP, hobjC3, topoC3_value]
    rw [hdef, topoC3_value]
    have := lpObjective_topoC3_bound c hf
    linarith

/-- C3 counterexample: on a single node of value 10000 with budget
`3 − 1e-9`, the value-greedy baseline overspends (its `cost ≤ remaining +
1e-8` test accepts the honeypot) and reports defender EU 7000, while every
budget-feasible LP point gives the solver at most `7000 − 2e-6`; so the
claimed `defender_EU(SSE) ≥ defender_EU(baseline) − 1e-6` fails on this
connected topology. -/
theorem c3_counterexample :
    SolveSpec topoC3 bC3 { alpha := 1, beta := 1 } solC3 ∧
    solC3.defenderExpectedUtility
      < (staticBaseline topoC3 bC3 { alpha := 1, beta := 1 }).defenderExpectedUtility
          - specTol := by
  refine ⟨solveSpec_solC3, ?_⟩
  rw [staticBaseline_topoC3_defEU]
  have hdef : solC3.defenderExpectedUtility = 17000 - 1/500000 - 10000 := by
    have hobjC3 : lpObjective topoC3 { alpha := 1, beta := 1 } "A" cC3
        = 17000 - 1/500000 := by
      rw [lpObjective, effDetProb_topoC3, topoC3_value]
      simp only [deltaD, cC3]
      norm_num
    simp only [solC3, mkSolutionFromLP, hobjC3, topoC3_value]
  rw [hdef]
  norm_num [specTol]

/-! ## Theorems: budget invariant (claim C4) -/

theorem assetCost_nonneg : ∀ a, (0:ℚ) ≤ assetCost a := by
  intro a
  cases a <;> norm_num [assetCost]

theorem budgetUsed_zero (topo : Topology) : budgetUsed topo (fun _ _ => 0) = 0 := by
  apply List.sum_eq_zero
  intro x hx
  obtain ⟨u, hu, rfl⟩ := List.mem_map.mp hx
  apply List.sum_eq_zero
  intro y hy
  obtain ⟨a, ha, rfl⟩ := List.mem_map.mp hy
  exact zero_mul _

theorem budgetUsed_mono (topo : Topology) (c d : Coverage)
    (h : ∀ t ∈ topo.nodeIds, ∀ a ∈ assetTypes, c t a ≤ d t a) :
    budgetUsed topo c ≤ budgetUsed topo d := by
  apply List.sum_le_sum
  intro t ht
  apply List.sum_le_sum
  intro a ha
  exact mul_le_mul_of_nonneg_right (h t ht a ha) (assetCost_nonneg a)

theorem budgetUsed_filterCov_le (topo : Topology) (c : Coverage)
    (hnn : ∀ t ∈ topo.nodeIds, ∀ a ∈ assetTypes, 0 ≤ c t a) :
    budgetUsed topo (filterCov c) ≤ budgetUsed topo c := by
  apply budgetUsed_mono
  intro t ht a ha
  unfold filterCov
  split
  · exact le_refl _
  · exact hnn t ht a ha

theorem sum_ite_point (l : List String) (hnd : l.Nodup) (nid : String)
    (q : ℚ) (hq : 0 ≤ q) :
    (l.map fun t => if t = nid then q else 0).sum ≤ q := by
  induction l with
  | nil => simpa using hq
  | cons x xs ih =>
    rcases List.nodup_cons.mp hnd with ⟨hx, hxs⟩
    by_cases hxe : x = nid
    · subst hxe
      simp only [List.map_cons, List.sum_cons]
      have hrest : (xs.map fun t => if t = x then q else 0).sum = 0 := by
        apply List.sum_eq_zero
        intro y hy
        obtain ⟨t, ht, rfl⟩ := List.mem_map.mp hy
        rw [if_neg]
        intro he
        subst he
        exact hx ht
      rw [hrest]
      simp
    · simp only [List.map_cons, List.sum_cons, if_neg hxe]
      have := ih hxs
      linarith

theorem budgetUsed_update_le (topo : Topology) (hnd : topo.nodeIds.Nodup)
    (cov : Coverage)
    (hnn : ∀ t ∈ topo.nodeIds, ∀ a ∈ assetTypes, 0 ≤ cov t a)
    (nid : String) (a : DeceptionType) :
    budgetUsed topo
        (fun t b => if t = nid then (if b = a then 1 else 0) else cov t b)
      ≤ budgetUsed topo cov + assetCost a := by
  have hstep : ∀ t ∈ topo.nodeIds,
      (assetTypes.map fun b =>
        (if t = nid then (if b = a then 1 else 0) else cov t b) * assetCost b).sum
      ≤ (assetTypes.map fun b => cov t b * assetCost b).sum
          + (if t = nid then assetCost a else 0) := by
    intro t ht
    by_cases h : t = nid
    · have hrow : (assetTypes.map fun b =>
          (if t = nid then (if b = a then 1 else 0) else cov t b) * assetCost b).sum
          = assetCost a := by
        simp only [if_pos h, assetTypes, List.map_cons, List.map_nil,
          List.sum_cons, List.sum_nil]
        cases a <;> (simp [assetCost]; try norm_num)
      have hinn : 0 ≤ (assetTypes.map fun b => cov t b * assetCost b).sum := by
        apply List.sum_nonneg
        intro y hy
        obtain ⟨b, hb, rfl⟩ := List.mem_map.mp hy
        exact mul_nonneg (hnn t ht b hb) (assetCost_nonneg b)
      rw [hrow, if_pos h]
      linarith
    · simp only [if_neg h, add_zero]
      exact le_refl _
  calc budgetUsed topo
        (fun t b => if t = nid then (if b = a then 1 else 0) else cov t b)
      ≤ (topo.nodeIds.map fun t =>
          (assetTypes.map fun b => cov t b * assetCost b).sum
            + (if t = nid then assetCost a else 0)).sum :=
        List.sum_le_sum hstep
    _ = budgetUsed topo cov
          + (topo.nodeIds.map fun t => if t = nid then assetCost a else 0).sum := by
        rw [budgetUsed, List.sum_map_add]
    _ ≤ budgetUsed topo cov + assetCost a := by
        have := sum_ite_point topo.nodeIds hnd nid (assetCost a) (assetCost_nonneg a)
        linarith

theorem greedyBuy_cases (cov : Coverage) (nid : String) (remaining : ℚ) :
    ∀ prefs : List DeceptionType,
      greedyBuy cov nid remaining prefs = (cov, remaining) ∨
      ∃ a, assetCost a ≤ remaining + epsTol ∧
        greedyBuy cov nid remaining prefs =
          ((fun t b => if t = nid then (if b = a then 1 else 0) else cov t b),
            remaining - assetCost a)
  | [] => Or.inl rfl
  | a :: rest => by
    by_cases h : assetCost a ≤ remaining + epsTol
    · exact Or.inr ⟨a, h, by simp [greedyBuy, h]⟩
    · have hr := greedyBuy_cases cov nid remaining rest
      simpa [greedyBuy, h] using hr

theorem greedyAux_bound (topo : Topology) (hnd : topo.nodeIds.Nodup) :
    ∀ (ranking : List String) (cov : Coverage) (remaining : ℚ),
      (∀ t ∈ topo.nodeIds, ∀ a ∈ assetTypes, 0 ≤ cov t a) →
      -epsTol ≤ remaining →
      budgetUsed topo (greedyAllocateAux cov remaining ranking).1
          ≤ budgetUsed topo cov
            + (remaining - (greedyAllocateAux cov remaining ranking).2) ∧
      -epsTol ≤ (greedyAllocateAux cov remaining ranking).2
  | [], cov, remaining, hnn, hrem => by
    simp only [greedyAllocateAux]
    exact ⟨by linarith, hrem⟩
  | nid :: rest, cov, remaining, hnn, hrem => by
    simp only [greedyAllocateAux]
    by_cases hstop : remaining < assetCost .honeytoken
    · simp only [if_pos hstop]
      exact ⟨by linarith, hrem⟩
    · simp only [if_neg hstop]
      rcases greedyBuy_cases cov nid remaining assetPreference with heq | ⟨a, hca, heq⟩
      · rw [heq]
        exact greedyAux_bound topo hnd rest cov remaining hnn hrem
      · rw [heq]
        have hnn2 : ∀ t ∈ topo.nodeIds, ∀ b ∈ assetTypes,
            (0:ℚ) ≤ (fun t b => if t = nid then (if b = a then 1 else 0)
              else cov t b) t b := by
          intro t ht b hb
          by_cases h : t = nid
          · simp only [if_pos h]
            split <;> norm_num
          · simp only [if_neg h]
            exact hnn t ht b hb
        have hrem2 : -epsTol ≤ remaining - assetCost a := by linarith
        have ih := greedyAux_bound topo hnd rest _ (remaining - assetCost a) hnn2 hrem2
        have hupd := budgetUsed_update_le topo hnd cov hnn nid a
        exact ⟨by linarith [ih.1], ih.2⟩

theorem greedyAllocate_budget (topo : Topology) (hnd : topo.nodeIds.Nodup)
    (B : ℚ) (hB : 0 ≤ B) (ranking : List String) :
    budgetUsed topo (greedyAllocate B ranking) ≤ B + epsTol := by
  have hep := epsTol_pos
  have h := greedyAux_bound topo hnd ranking (fun _ _ => 0) B
    (by intro t _ a _; norm_num) (by linarith)
  rw [greedyAllocate]
  have h0 := budgetUsed_zero topo
  linarith [h.1, h.2]

theorem sum_map_const (l : List String) (c : ℚ) :
    (l.map fun _ => c).sum = l.length * c := by
  induction l with
  | nil => simp
  | cons x xs ih =>
    simp [ih]
    ring

theorem uniformCoverage_budget (topo : Topology) (B : ℚ) (hB : 0 ≤ B) :
    budgetUsed topo (uniformCoverage topo B) ≤ B := by
  by_cases hn : topo.nodeIds.length = 0
  · have hnil : topo.nodeIds = [] := List.length_eq_zero.mp hn
    rw [budgetUsed, hnil]
    simpa using hB
  · have hpos : 0 < topo.nodeIds.length := Nat.pos_of_ne_zero hn
    have hn0 : (0:ℚ) < (topo.nodeIds.length : ℚ) := by exact_mod_cast hpos
    have hdiv : (0:ℚ) ≤ B / (topo.nodeIds.length : ℚ) :=
      div_nonneg hB (le_of_lt hn0)
    have hstep : ∀ t ∈ topo.nodeIds,
        (assetTypes.map fun a => uniformCoverage topo B t a * assetCost a).sum
          ≤ B / (topo.nodeIds.length : ℚ) := by
      intro t ht
      have hmin : min (B / (topo.nodeIds.length : ℚ) / assetCost .honeytoken) 1
          ≤ B / (topo.nodeIds.length : ℚ) := by
        rw [show assetCost .honeytoken = 1 from rfl, div_one]
        exact min_le_left _ _
      simp only [uniformCoverage, assetTypes, List.map_cons, List.map_nil,
        List.sum_cons, List.sum_nil, if_pos hpos]
      norm_num [assetCost]
      split_ifs with h1 h2 h3 h4 h5 h6 h7
      all_goals norm_num [assetCost] at *
      all_goals try exact hdiv
    calc budgetUsed topo (uniformCoverage topo B)
        ≤ (topo.nodeIds.map fun _ => B / (topo.nodeIds.length : ℚ)).sum :=
          List.sum_le_sum hstep
      _ = B := by
          rw [sum_map_const]
          field_simp

/-- C4.  Every solver output (under the exact-LP model) and every baseline
output respects the budget invariant `Σ_{t,a} c_{t,a}·cost(a) ≤ B + 1e-6`:
the solver's LP already enforces `≤ B` and the `1e-8` coverage filter only
removes mass; the uniform baseline spends at most `B`; the two greedy
baselines can overspend by at most `1e-8 < 1e-6` through their
`cost ≤ remaining + 1e-8` test. -/
theorem c4_budget_invariant (topo : Topology) (B : ℚ) (params : UtilityParams)
    (hB : 0 ≤ B) (hnd : topo.nodeIds.Nodup) :
    (∀ sol, SolveSpec topo B params sol →
      budgetUsed topo sol.coverage ≤ B + specTol) ∧
    budgetUsed topo (uniformBaseline topo B params).coverage ≤ B + specTol ∧
    budgetUsed topo (staticBaseline topo B params).coverage ≤ B + specTol ∧
    budgetUsed topo (heuristicBaseline topo B params).coverage ≤ B + specTol := by
  have hts := specTol_pos
  have heps_lt : epsTol < specTol := by norm_num [epsTol, specTol]
  refine ⟨?_, ?_, ?_, ?_⟩
  · intro sol hs
    obtain ⟨⟨tstar, c, hmem, hfeas, -, hsol⟩, -⟩ := hs
    subst hsol
    have h1 : budgetUsed topo (filterCov c) ≤ budgetUsed topo c :=
      budgetUsed_filterCov_le topo c (fun t ht a ha => (hfeas.1 t ht a ha).1)
    have h2 := hfeas.2.2.1
    have h3 : (mkSolutionFromLP topo params tstar c).coverage = filterCov c := rfl
    rw [h3]
    linarith
  · rw [uniformBaseline, buildSolution_coverage]
    have := uniformCoverage_budget topo B hB
    linarith
  · rw [staticBaseline, buildSolution_coverage]
    have := greedyAllocate_budget topo hnd B hB (sortByDesc topo.value topo.nodeIds)
    linarith
  · rw [heuristicBaseline, buildSolution_coverage]
    have := greedyAllocate_budget topo hnd B hB
      (sortByDesc (degreeCentrality topo) topo.nodeIds)
    linarith

/-- C4 witness: the budget invariant instantiated on the one-node topology
with budget 0, including a concrete solver output. -/
theorem c4_budget_invariant_witness :
    budgetUsed topoC9 solC9zero.coverage ≤ 0 + specTol ∧
    budgetUsed topoC9 (uniformBaseline topoC9 0 { alpha := 1, beta := 1 }).coverage
      ≤ 0 + specTol ∧
    budgetUsed topoC9 (staticBaseline topoC9 0 { alpha := 1, beta := 1 }).coverage
      ≤ 0 + specTol ∧
    budgetUsed topoC9 (heuristicBaseline topoC9 0 { alpha := 1, beta := 1 }).coverage
      ≤ 0 + specTol := by
  have h := c4_budget_invariant topoC9 0 { alpha := 1, beta := 1 }
    (by norm_num) (by decide)
  exact ⟨h.1 solC9zero solveSpec_solC9zero, h.2.1, h.2.2.1, h.2.2.2⟩

/-! ## Theorems: detection model and win conditions (claims C5, C6) -/

theorem detectAssets_congr (g g' : ℕ → ℕ → ℚ) (round : ℕ) (act : ActionRec) :
    ∀ (assets : List DeceptionAsset) (rng : Rng) (det : Bool)
      (evs : List DetectionEvent), g rng.seed = g' rng.seed →
      detectAssets g round act assets rng det evs
        = detectAssets g' round act assets rng det evs
  | [], _, _, _, _ => rfl
  | a :: rest, rng, det, evs, h => by
    have h0 : g rng.seed rng.idx = g' rng.seed rng.idx := by rw [h]
    have h1 : ∀ det2 evs2,
        detectAssets g round act rest ⟨rng.seed, rng.idx + 1⟩ det2 evs2
          = detectAssets g' round act rest ⟨rng.seed, rng.idx + 1⟩ det2 evs2 :=
      fun det2 evs2 => detectAssets_congr g g' round act rest _ det2 evs2 h
    have h2 : detectAssets g round act rest rng det evs
        = detectAssets g' round act rest rng det evs :=
      detectAssets_congr g g' round act rest rng det evs h
    simp only [detectAssets, h0, h1, h2]

theorem detectAssets_seed (g : ℕ → ℕ → ℚ) (round : ℕ) (act : ActionRec) :
    ∀ (assets : List DeceptionAsset) (rng : Rng) (det : Bool)
      (evs : List DetectionEvent),
      (detectAssets g round act assets rng det evs).rng.seed = rng.seed
  | [], _, _, _ => rfl
  | a :: rest, rng, det, evs => by
    simp only [detectAssets]
    split_ifs
    · simpa using detectAssets_seed g round act rest ⟨rng.seed, rng.idx + 1⟩ _ _
    · simpa using detectAssets_seed g round act rest ⟨rng.seed, rng.idx + 1⟩ _ _
    · simpa using detectAssets_seed g round act rest rng det evs

theorem processActions_congr (g g' : ℕ → ℕ → ℚ) (round : ℕ) :
    ∀ (acts : List ActionRec) (s : DetState), g s.rng.seed = g' s.rng.seed →
      processActions g round acts s = processActions g' round acts s
  | [], _, _ => rfl
  | act :: rest, s, h => by
    simp only [processActions]
    rw [detectAssets_congr g g' round act s.assets s.rng s.detected s.detections h]
    apply processActions_congr
    rw [detectAssets_seed]
    exact h

/-- C5.  The detection phase of `evaluate_round` behaves as specified:
(1) it consumes only draws of the PRNG seeded by the current round index
(a fresh per-round stream); (2) for a pending action and a non-triggered
deployed asset on the action's node, one uniform value is drawn, and
exactly when it falls below `min(detection_probability·(1+noise), 1)` the
asset is triggered, the detected flag is set, and a detection event
`(round, node_id, asset kind, technique_id)` is appended; (3) a triggered
asset, or one on another node, consumes no draw and changes nothing. -/
theorem c5_detection_model :
    (∀ (g g' : ℕ → ℕ → ℚ) (st : GameState),
      g st.currentRound = g' st.currentRound →
      evaluateRound g st = evaluateRound g' st) ∧
    (∀ (g : ℕ → ℕ → ℚ) (round : ℕ) (act : ActionRec) (a : DeceptionAsset)
      (rest : List DeceptionAsset) (rng : Rng) (det : Bool)
      (evs : List DetectionEvent),
      a.nodeId = act.nodeId → a.triggered = false →
      detectAssets g round act (a :: rest) rng det evs =
        if g rng.seed rng.idx < detectionThreshold a act then
          let s := detectAssets g round act rest ⟨rng.seed, rng.idx + 1⟩ true
            (evs ++ [⟨round, act.nodeId, a.assetType.str, act.techniqueId⟩])
          ⟨{ a with triggered := true } :: s.assets, s.rng, s.detected, s.detections⟩
        else
          let s := detectAssets g round act rest ⟨rng.seed, rng.idx + 1⟩ det evs
          ⟨a :: s.assets, s.rng, s.detected, s.detections⟩) ∧
    (∀ (g : ℕ → ℕ → ℚ) (round : ℕ) (act : ActionRec) (a : DeceptionAsset)
      (rest : List DeceptionAsset) (rng : Rng) (det : Bool)
      (evs : List DetectionEvent),
      ¬ (a.nodeId = act.nodeId ∧ a.triggered = false) →
      detectAssets g round act (a :: rest) rng det evs =
        (let s := detectAssets g round act rest rng det evs
         ⟨a :: s.assets, s.rng, s.detected, s.detections⟩)) := by
  refine ⟨?_, ?_, ?_⟩
  · intro g g' st h
    unfold evaluateRound
    rw [processActions_congr g g' st.currentRound st.actionsLog _ h]
  · intro g round act a rest rng det evs h1 h2
    rw [detectAssets, if_pos ⟨h1, h2⟩]
  · intro g round act a rest rng det evs h
    rw [detectAssets, if_neg h]

/-- C5 witness: on the concrete state `stDet` (one pending move action,
one honeypot on the same node, draws all 0) the eligible-asset step fires:
the run seeded by round 1 triggers the asset. -/
theorem c5_detection_model_witness :
    evaluateRound g0 stDet = evaluateRound (fun s i => g0 s i) stDet ∧
    detectAssets g0 1 actMove [honeypotAsset "A"] ⟨1, 0⟩ false [] =
      (if g0 1 0 < detectionThreshold (honeypotAsset "A") actMove then
        let s := detectAssets g0 1 actMove [] ⟨1, 1⟩ true
          [⟨1, "A", (honeypotAsset "A").assetType.str, "lateral_movement"⟩]
        ⟨{ honeypotAsset "A" with triggered := true } :: s.assets, s.rng,
          s.detected, s.detections⟩
      else
        let s := detectAssets g0 1 actMove [] ⟨1, 1⟩ false []
        ⟨honeypotAsset "A" :: s.assets, s.rng, s.detected, s.detections⟩) := by
  refine ⟨c5_detection_model.1 g0 (fun s i => g0 s i) stDet rfl, ?_⟩
  exact c5_detection_model.2.1 g0 1 actMove (honeypotAsset "A") [] ⟨1, 0⟩ false []
    rfl rfl

/-- C6.  After `evaluate_round`: a set detected flag forces game over with
winner `"defender"`; otherwise, once the advanced round counter exceeds
`max_rounds`, the game is over and the attacker wins exactly when the
(unchanged) exfiltrated value is positive; the round counter advances by
one; and no output has winner `"attacker"` together with a set detected
flag or a non-positive exfiltrated value. -/
theorem c6_win_conditions (g : ℕ → ℕ → ℚ) (st : GameState) :
    ((evaluateRound g st).attacker.detected = true →
      (evaluateRound g st).gameOver = true ∧
      (evaluateRound g st).winner = "defender") ∧
    ((evaluateRound g st).attacker.detected = false →
      st.currentRound + 1 > st.maxRounds →
      (evaluateRound g st).gameOver = true ∧
      (evaluateRound g st).winner =
        (if 0 < st.attacker.exfiltratedValue then "attacker" else "defender")) ∧
    (evaluateRound g st).currentRound = st.currentRound + 1 ∧
    (evaluateRound g st).attacker.exfiltratedValue
      = st.attacker.exfiltratedValue ∧
    ((evaluateRound g st).winner = "attacker" →
      (evaluateRound g st).attacker.detected = false ∧
      0 < (evaluateRound g st).attacker.exfiltratedValue) := by
  have hsd : ("defender":String) ≠ "attacker" := by decide
  have hse : ("":String) ≠ "attacker" := by decide
  by_cases hdet : (processActions g st.currentRound st.actionsLog
    ⟨st.defender.deployedAssets, ⟨st.currentRound, 0⟩,
      st.attacker.detected, st.detections⟩).detected
  · simp [evaluateRound, hdet, hsd]
  · by_cases hrnd : st.currentRound + 1 > st.maxRounds
    · by_cases hex : 0 < st.attacker.exfiltratedValue
      · simp [evaluateRound, hdet, hrnd, hex]
      · simp [evaluateRound, hdet, hrnd, hex, hsd]
    · simp [evaluateRound, hdet, hrnd, hse]

/-- C6 witness: on `stDet` round evaluation detects the attacker (draw 0
against a honeypot), ending the game with winner `"defender"`; on the
quiet final-round state `stRound` the round counter passes `max_rounds`
with nothing exfiltrated and the defender wins. -/
theorem c6_win_conditions_witness :
    ((evaluateRound g0 stDet).gameOver = true ∧
      (evaluateRound g0 stDet).winner = "defender") ∧
    ((evaluateRound g0 stRound).gameOver = true ∧
      (evaluateRound g0 stRound).winner = "defender") := by
  constructor
  · apply (c6_win_conditions g0 stDet).1
    show (evaluateRound g0 stDet).attacker.detected = true
    simp [evaluateRound, processActions, detectAssets, stDet, g0,
      detectionThreshold, honeypotAsset]
    norm_num
  · have h := (c6_win_conditions g0 stRound).2.1 ?_ ?_
    · simpa [stRound] using h
    · show (evaluateRound g0 stRound).attacker.detected = false
      simp [evaluateRound, processActions, stRound]
    · show stRound.currentRound + 1 > stRound.maxRounds
      simp [stRound]

/-! ## Theorems: determinism of the synchronous runner (claim C7) -/

/-- C7.  `run_game_sync` is deterministic: with the draw-stream family
fixed, two runs with identical topology, budget, max_rounds, seed,
defender deployment sequence, and attacker path produce identical terminal
states (every component, including the attacker and defender states, the
detection log, the round counter, game_over, and winner).  In this pure
embedding all randomness is an explicit function of the seeds, so equal
inputs yield equal outputs. -/
theorem c7_determinism (g : ℕ → ℕ → ℚ) (t₁ t₂ : Topology) (b₁ b₂ : ℚ)
    (m₁ m₂ s₁ s₂ : ℕ) (d₁ d₂ : List (String × String)) (p₁ p₂ : List String)
    (ht : t₁ = t₂) (hb : b₁ = b₂) (hm : m₁ = m₂) (hs : s₁ = s₂)
    (hd : d₁ = d₂) (hp : p₁ = p₂) :
    runGameSync g t₁ b₁ m₁ s₁ d₁ p₁ = runGameSync g t₂ b₂ m₂ s₂ d₂ p₂ := by
  subst ht
  subst hb
  subst hm
  subst hs
  subst hd
  subst hp
  rfl

/-- C7 witness: the determinism theorem applied at a concrete
configuration. -/
theorem c7_determinism_witness :
    runGameSync g0 topoC8 10 3 42 [] ["E", "Y"]
      = runGameSync g0 topoC8 10 3 42 [] ["E", "Y"] :=
  c7_determinism g0 topoC8 topoC8 10 10 3 3 42 42 [] [] ["E", "Y"] ["E", "Y"]
    rfl rfl rfl rfl rfl rfl

/-! ## Theorems: non-neighbour path entries (claim C8) -/

/-- C8 (amended).  When the next path entry is not a neighbour of the
attacker's current position (and differs from it), that entry is skipped
with no state change and no action-log entry for that step — but the round
does not end there: the loop proceeds to the remaining path entries with
the context unchanged.  (The claim's "break out of the round" is refuted
by the counterexample: the source `continue`s.) -/
theorem c8_nonneighbor_skip (g : ℕ → ℕ → ℚ) (target : String)
    (rest : List String) (ctx : AttackCtx) (position : String)
    (h1 : ¬ target = position)
    (h2 : target ∉ ctx.topology.neighbors position) :
    stubAttackerLoop g (target :: rest) ctx position
      = stubAttackerLoop g rest ctx position := by
  rw [stubAttackerLoop, if_neg h1, if_pos h2]

/-- C8 witness: on `ctxC8` (attacker at `E`, isolated node `X`) the entry
`X` of the path `[X, Y]` is skipped and the loop continues with `[Y]` on
the same context. -/
theorem c8_nonneighbor_skip_witness :
    stubAttackerLoop g0 ("X" :: ["Y"]) ctxC8 "E"
      = stubAttackerLoop g0 ["Y"] ctxC8 "E" := by
  apply c8_nonneighbor_skip
  · decide
  · decide

/-- C8 counterexample: with path `[X, Y]` from position `E`, where `X` is
not a neighbour but `Y` is, the attacker's round does not end at `X`: the
same round attempts `Y`, logging an execute action (technique T1190) and a
move action on `Y` — so "no later entry of the path is attempted in that
round" is false. -/
theorem c8_counterexample :
    (stubAttacker g0 ["X", "Y"] 42 stC8).actionsLog =
      [{ action := "execute", nodeId := "Y", techniqueId := "T1190",
         noise := some (2/5) },
       { action := "move", nodeId := "Y",
         techniqueId := "lateral_movement" }] ∧
    (stubAttacker g0 ["X", "Y"] 42 stC8).actionsLog ≠ [] := by
  have hrun : (stubAttacker g0 ["X", "Y"] 42 stC8).actionsLog =
      [{ action := "execute", nodeId := "Y", techniqueId := "T1190",
         noise := some (2/5) },
       { action := "move", nodeId := "Y",
         techniqueId := "lateral_movement" }] := by
    rw [stubAttacker]
    simp only [stubAttackerLoop, stC8, initState, topoC8]
    simp [Topology.neighbors, getApplicableTechniques, techniqueCatalog,
      Technique.applicableTo, AccessLevel.rank, Topology.getAttrs,
      List.lookup, pickBest, executeStage, moveStage, Rng.draw, g0,
      Topology.setCompromised]
    norm_num
    simp [Topology.getAttrs, List.lookup]
  exact ⟨hrun, by rw [hrun]; simp⟩

/-! ## Theorems: defender deployment skipping (claim C9) -/

/-- C9 (amended).  During defender setup an entry whose asset cost exceeds
the remaining budget is skipped — nothing is appended and `total_spent` is
unchanged — and the remaining entries are still processed.  An entry whose
node id is not a node of the topology is NOT skipped: the deploy check
looks only at the budget, so the asset is appended and charged regardless
of the node id (see the counterexample). -/
theorem c9_deploy_skip (d : DefenderState) (atype nid : String)
    (f : String → DeceptionAsset) (rest : List (String × String))
    (hf : assetFactory atype = some f) :
    (¬ (f nid).cost ≤ d.remainingBudget →
      deployActions d ((atype, nid) :: rest) = deployActions d rest) ∧
    ((f nid).cost ≤ d.remainingBudget →
      deployActions d ((atype, nid) :: rest) =
        deployActions { d with
          deployedAssets := d.deployedAssets ++ [f nid],
          totalSpent := d.totalSpent + (f nid).cost } rest) := by
  constructor
  · intro h
    simp only [deployActions, hf, DefenderState.deploy, if_neg h]
  · intro h
    simp only [deployActions, hf, DefenderState.deploy, if_pos h]

/-- C9 witness: with budget 2, the honeypot entry (cost 3) is skipped and
the following honeytoken entry is still processed — the scenario of
`test_respects_budget`. -/
theorem c9_deploy_skip_witness :
    deployActions { budget := 2 } [("honeypot", "db-1"), ("honeytoken", "web-1")]
      = deployActions { budget := 2 } [("honeytoken", "web-1")] := by
  apply (c9_deploy_skip { budget := 2 } "honeypot" "db-1" honeypotAsset
    [("honeytoken", "web-1")] rfl).1
  norm_num [honeypotAsset, DefenderState.remainingBudget]

/-- C9 counterexample: a deployment entry naming `ZZZ`, which is not a
node of the topology, is not skipped: the stub defender's loop appends the
asset and charges its cost. -/
theorem c9_counterexample :
    deployActions { budget := 5 } [("honeytoken", "ZZZ")]
      = Except.ok { budget := 5, deployedAssets := [honeytokenAsset "ZZZ"],
                    totalSpent := 1 } ∧
    "ZZZ" ∉ topoC9.nodeIds := by
  constructor
  · simp only [deployActions, assetFactory, DefenderState.deploy,
      DefenderState.remainingBudget]
    norm_num [honeytokenAsset]
  · decide

/-! ## Theorems: default noise for move actions (claim C10) -/

theorem executeStage_actions (g : ℕ → ℕ → ℚ) (ctx : AttackCtx)
    (target : String) (best : Technique) :
    (executeStage g ctx target best).actions
      = ctx.actions ++ [⟨"execute", target, best.id, some best.noise⟩] := by
  simp only [executeStage]
  split_ifs <;> rfl

theorem moveStage_actions (ctx : AttackCtx) (target : String) :
    (moveStage ctx target).actions
      = ctx.actions ++ [⟨"move", target, "lateral_movement", Option.none⟩]
        ++ (if (ctx.topology.getAttrs target).value > 0 then
            [⟨"exfiltrate", target, "T1041", some (9/20)⟩] else []) := by
  simp only [moveStage]
  split_ifs <;> simp

theorem moveStage_move_noise (ctx : AttackCtx) (target : String)
    (hctx : ∀ r ∈ ctx.actions, r.action = "move" →
      r.noise = Option.none ∧ r.techniqueId = "lateral_movement") :
    ∀ r ∈ (moveStage ctx target).actions, r.action = "move" →
      r.noise = Option.none ∧ r.techniqueId = "lateral_movement" := by
  intro r hr hm
  rw [moveStage_actions] at hr
  rcases List.mem_append.mp hr with hr | hr
  · rcases List.mem_append.mp hr with hr | hr
    · exact hctx r hr hm
    · simp only [List.mem_singleton] at hr
      subst hr
      exact ⟨rfl, rfl⟩
  · split_ifs at hr with hv
    · simp only [List.mem_singleton] at hr
      subst hr
      simp at hm
    · simp at hr

theorem stubAttackerLoop_move_noise (g : ℕ → ℕ → ℚ) :
    ∀ (path : List String) (ctx : AttackCtx) (position : String),
      (∀ r ∈ ctx.actions, r.action = "move" →
        r.noise = Option.none ∧ r.techniqueId = "lateral_movement") →
      ∀ r ∈ (stubAttackerLoop g path ctx position).actions,
        r.action = "move" →
        r.noise = Option.none ∧ r.techniqueId = "lateral_movement"
  | [], ctx, position, hctx => hctx
  | target :: rest, ctx, position, hctx => by
    rw [stubAttackerLoop]
    by_cases h1 : target = position
    · rw [if_pos h1]
      exact stubAttackerLoop_move_noise g rest ctx position hctx
    · rw [if_neg h1]
      by_cases h2 : target ∉ ctx.topology.neighbors position
      · rw [if_pos h2]
        exact stubAttackerLoop_move_noise g rest ctx position hctx
      · rw [if_neg h2]
        by_cases hacc : ctx.attacker.accessLevels target = AccessLevel.none
        · rw [if_pos hacc]
          cases hpb : pickBest (getApplicableTechniques
            (ctx.topology.getAttrs target)
            (ctx.attacker.accessLevels target)) with
          | none =>
            simp only [hpb]
            exact stubAttackerLoop_move_noise g rest ctx position hctx
          | some best =>
            simp only [hpb]
            have hc2 : ∀ r ∈ (executeStage g ctx target best).actions,
                r.action = "move" →
                r.noise = Option.none ∧ r.techniqueId = "lateral_movement" := by
              intro r hr hm
              rw [executeStage_actions] at hr
              rcases List.mem_append.mp hr with hr | hr
              · exact hctx r hr hm
              · simp only [List.mem_singleton] at hr
                subst hr
                simp at hm
            by_cases hmv : (executeStage g ctx target best).attacker.accessLevels
              target ≠ AccessLevel.none
            · rw [if_pos hmv]
              exact moveStage_move_noise _ target hc2
            · rw [if_neg hmv]
              exact hc2
        · rw [if_neg hacc]
          exact moveStage_move_noise ctx target hctx

/-- C10.  Round evaluation reads a missing `noise` field as 0.3: for any
logged action with no noise, the detection threshold is
`min(detection_probability·1.3, 1)`.  Every `"move"` action the stub
attacker logs carries no noise field and technique `"lateral_movement"`,
so a lateral move past a non-triggered deployed asset triggers it exactly
when the draw falls below `min(detection_probability·1.3, 1)`. -/
theorem c10_default_noise :
    (∀ (a : DeceptionAsset) (act : ActionRec), act.noise = Option.none →
      detectionThreshold a act
        = min (a.detectionProbability * (1 + 3/10)) 1) ∧
    (∀ (g : ℕ → ℕ → ℚ) (path : List String) (ctx : AttackCtx)
      (position : String),
      (∀ r ∈ ctx.actions, r.action = "move" →
        r.noise = Option.none ∧ r.techniqueId = "lateral_movement") →
      ∀ r ∈ (stubAttackerLoop g path ctx position).actions,
        r.action = "move" →
        r.noise = Option.none ∧ r.techniqueId = "lateral_movement") := by
  constructor
  · intro a act h
    rw [detectionThreshold, h]
    rfl
  · exact stubAttackerLoop_move_noise

/-- C10 witness: the default-noise threshold evaluated on the honeypot and
the concrete `stDet` move action, and the no-noise property of the move
actions produced by the `stC8` run. -/
theorem c10_default_noise_witness :
    detectionThreshold (honeypotAsset "A") actMove
      = min ((17/20) * (1 + 3/10)) 1 ∧
    (∀ r ∈ (stubAttackerLoop g0 ["X", "Y"] ctxC8 "E").actions,
      r.action = "move" →
      r.noise = Option.none ∧ r.techniqueId = "lateral_movement") := by
  constructor
  · exact c10_default_noise.1 (honeypotAsset "A") actMove rfl
  · exact c10_default_noise.2 g0 ["X", "Y"] ctxC8 "E" (by simp [ctxC8])

end Stratagem
